import Mathlib

/-!
Shallow embedding of the aci-map simulation kernel (Rust) in Lean 4.

Conventions of the embedding:
* `f32` values are modelled as exact rationals (`ℚ`); the floating-point
  square root `f32::sqrt` is abstracted as an explicit function parameter
  `sq : ℚ → ℚ` wherever the code calls it, and instantiated with the
  rational approximation `sqrtQ` (exact on perfect squares) where a
  concrete run of the code is evaluated.
* the tile grid `[[Tile; HEIGHT]; WIDTH]` is a function
  `Fin WIDTH → Fin HEIGHT → Tile`; the mutable per-tile delta buffers of
  the solvers are accumulated functionally with `addAt`.
* the object registry is modelled by the list of objects it yields during
  effector application, each object carrying its effector records
  (`air_levelers()`, `oxygen_users()`, `air_pushers()`, `liquid_levelers()`),
  already in absolute coordinates, in the registry's fixed iteration order.
-/

namespace AciMap

/-- Rational model of `f32::clamp(lo, hi)` (for `lo ≤ hi`, the only case the
code exercises: Rust panics otherwise). -/
def rclamp (x lo hi : ℚ) : ℚ := max lo (min x hi)

/-- Greatest `r ≤ fuel` with `r * r ≤ n` (a kernel-reducible floor square
root, used with `fuel = n`). -/
def isqrtAux (n : ℕ) : ℕ → ℕ
  | 0 => 0
  | r + 1 => if (r + 1) * (r + 1) ≤ n then r + 1 else isqrtAux n r

/-- Floor integer square root. -/
def isqrt (n : ℕ) : ℕ := isqrtAux n n

/-- Rational model of `f32::sqrt` on nonnegative inputs: exact on perfect
squares (where all concrete evaluations below take place), a floor-style
approximation elsewhere. Negative inputs (NaN in Rust) are mapped to 0;
no claim is evaluated there. -/
def sqrtQ (q : ℚ) : ℚ :=
  if q ≤ 0 then 0 else (isqrt (q.num.toNat * q.den) : ℚ) / (q.den : ℚ)

/-- Air contents of a ground tile (src/air.rs `AirData`). -/
@[ext]
structure AirData where
  nitrogen : ℚ
  oxygen : ℚ
  fumes : ℚ
  deriving DecidableEq

namespace AirData

/-- `AirData::new_default` (src/air.rs). -/
def new_default : AirData := ⟨0.79, 0.21, 0⟩

/-- `AirData::nitrogen_fraction` (src/air.rs). -/
def nitrogen_fraction (a : AirData) : ℚ := a.nitrogen / (a.nitrogen + a.oxygen + a.fumes)

/-- `AirData::oxygen_fraction` (src/air.rs). -/
def oxygen_fraction (a : AirData) : ℚ := a.oxygen / (a.nitrogen + a.oxygen + a.fumes)

/-- `AirData::fumes_fraction` (src/air.rs). -/
def fumes_fraction (a : AirData) : ℚ := a.fumes / (a.nitrogen + a.oxygen + a.fumes)

/-- Total air mass of a tile. -/
def total (a : AirData) : ℚ := a.nitrogen + a.oxygen + a.fumes

end AirData

/-- Liquid contents of a ground tile (src/liquids.rs `LiquidData`). -/
inductive LiquidData where
  | None
  | Water (level : ℚ)
  | Lava (level : ℚ)
  deriving DecidableEq

/-- `LiquidData::MAX_LEVEL` (src/liquids.rs). -/
def LiquidData.MAX_LEVEL : ℚ := 3.0

/-- A liquid kind: the data of the Rust trait `Liquid` (src/liquids.rs),
whose implementors are `Water`, `Lava` and `AnyLiquid`. -/
structure Liquid where
  spread_rate : ℚ
  minimal_height_to_spread : ℚ
  level_of : LiquidData → Option ℚ

/-- The `AnyLiquid` implementor of `Liquid` (src/liquids.rs). -/
def AnyLiquid : Liquid where
  spread_rate := 0.0
  minimal_height_to_spread := 0.0
  level_of := fun d =>
    match d with
    | .None => Option.none
    | .Water level => some level
    | .Lava level => some level

/-- The `Water` implementor of `Liquid` (src/liquids.rs). -/
def Water : Liquid where
  spread_rate := 0.01
  minimal_height_to_spread := 0.01
  level_of := fun d =>
    match d with
    | .Water level => some level
    | _ => Option.none

/-- The `Lava` implementor of `Liquid` (src/liquids.rs). -/
def Lava : Liquid where
  spread_rate := 0.001
  minimal_height_to_spread := 0.1
  level_of := fun d =>
    match d with
    | .Lava level => some level
    | _ => Option.none

/-- `LiquidData::get_level::<L>` (src/liquids.rs): the level of liquid kind
`L`, defaulting to 0 when the tile holds no liquid of that kind. -/
def LiquidData.get_level (L : Liquid) (d : LiquidData) : ℚ := (L.level_of d).getD 0

/-- `AirData::air_pressure` (src/air.rs lines 199-203): total air divided by
the free (non-liquid) volume fraction, floored at 0.001. -/
def AirData.air_pressure (a : AirData) (liquid_level : ℚ) : ℚ :=
  (a.nitrogen + a.oxygen + a.fumes) / max (1 - liquid_level / LiquidData.MAX_LEVEL) 0.001

/-- `TileType` (src/tiles.rs): a wall, or ground with air and liquids. -/
inductive TileType where
  | Wall
  | Ground (air : AirData) (liquids : LiquidData)
  deriving DecidableEq

/-- `TileType::get_air` (src/tiles.rs). -/
def TileType.get_air : TileType → Option AirData
  | .Wall => Option.none
  | .Ground air _ => some air

/-- `TileType::get_liquids` (src/tiles.rs). -/
def TileType.get_liquids : TileType → Option LiquidData
  | .Wall => Option.none
  | .Ground _ liquids => some liquids

/-- `Tile` (src/tiles.rs). -/
@[ext]
structure Tile where
  ground_level : ℚ
  tile_type : TileType
  deriving DecidableEq

/-- `Map::neighbour_tile_coords` (src/lib.rs lines 216-241): the in-bounds
cells of the 8-neighbourhood of `(x, y)` in a `WIDTH × HEIGHT` grid, in the
fixed order of the source array. -/
def neighbour_tile_coords (WIDTH HEIGHT x y : ℕ) : List (ℕ × ℕ) :=
  ([ if 0 < x ∧ 0 < y then some (x - 1, y - 1) else Option.none,
     if 0 < x then some (x - 1, y) else Option.none,
     if 0 < x ∧ y < HEIGHT - 1 then some (x - 1, y + 1) else Option.none,
     if 0 < y then some (x, y - 1) else Option.none,
     if y < HEIGHT - 1 then some (x, y + 1) else Option.none,
     if x < WIDTH - 1 ∧ 0 < y then some (x + 1, y - 1) else Option.none,
     if x < WIDTH - 1 then some (x + 1, y) else Option.none,
     if x < WIDTH - 1 ∧ y < HEIGHT - 1 then some (x + 1, y + 1) else Option.none ]).filterMap id

/-- Fin-indexed form of `Map::neighbour_tile_coords`, used by the solvers so
that tile lookups are total; the entries and their order are the same as in
`neighbour_tile_coords` (see `neighbour_coords_spec`). -/
def neighbour_coords {W H : ℕ} (x : Fin W) (y : Fin H) : List (Fin W × Fin H) :=
  ([ if h : 0 < x.val ∧ 0 < y.val then
       some (⟨x.val - 1, by have := x.isLt; omega⟩, ⟨y.val - 1, by have := y.isLt; omega⟩)
     else Option.none,
     if h : 0 < x.val then some (⟨x.val - 1, by have := x.isLt; omega⟩, y) else Option.none,
     if h : 0 < x.val ∧ y.val < H - 1 then
       some (⟨x.val - 1, by have := x.isLt; omega⟩, ⟨y.val + 1, by omega⟩)
     else Option.none,
     if h : 0 < y.val then some (x, ⟨y.val - 1, by have := y.isLt; omega⟩) else Option.none,
     if h : y.val < H - 1 then some (x, ⟨y.val + 1, by omega⟩) else Option.none,
     if h : x.val < W - 1 ∧ 0 < y.val then
       some (⟨x.val + 1, by omega⟩, ⟨y.val - 1, by have := y.isLt; omega⟩)
     else Option.none,
     if h : x.val < W - 1 then some (⟨x.val + 1, by omega⟩, y) else Option.none,
     if h : x.val < W - 1 ∧ y.val < H - 1 then
       some (⟨x.val + 1, by omega⟩, ⟨y.val + 1, by omega⟩)
     else Option.none ]).filterMap id

/-- `Map::all_tile_coords` (src/lib.rs): row-major enumeration of the grid. -/
def all_tile_coords (W H : ℕ) : List (Fin W × Fin H) :=
  (List.finRange W).flatMap (fun x => (List.finRange H).map (fun y => (x, y)))

/-- The per-tile air delta buffer entry (src/air.rs `AirDiff`). -/
@[ext]
structure AirDiff where
  nitrogen : ℚ
  oxygen : ℚ
  fumes : ℚ
  deriving DecidableEq

instance : Zero AirDiff := ⟨⟨0, 0, 0⟩⟩

instance : Add AirDiff := ⟨fun a b => ⟨a.nitrogen + b.nitrogen, a.oxygen + b.oxygen, a.fumes + b.fumes⟩⟩

instance : Neg AirDiff := ⟨fun a => ⟨-a.nitrogen, -a.oxygen, -a.fumes⟩⟩

@[simp] theorem AirDiff.zero_nitrogen : (0 : AirDiff).nitrogen = 0 := rfl

@[simp] theorem AirDiff.zero_oxygen : (0 : AirDiff).oxygen = 0 := rfl

@[simp] theorem AirDiff.zero_fumes : (0 : AirDiff).fumes = 0 := rfl

@[simp] theorem AirDiff.add_nitrogen (a b : AirDiff) : (a + b).nitrogen = a.nitrogen + b.nitrogen := rfl

@[simp] theorem AirDiff.add_oxygen (a b : AirDiff) : (a + b).oxygen = a.oxygen + b.oxygen := rfl

@[simp] theorem AirDiff.add_fumes (a b : AirDiff) : (a + b).fumes = a.fumes + b.fumes := rfl

@[simp] theorem AirDiff.neg_nitrogen (a : AirDiff) : (-a).nitrogen = -a.nitrogen := rfl

@[simp] theorem AirDiff.neg_oxygen (a : AirDiff) : (-a).oxygen = -a.oxygen := rfl

@[simp] theorem AirDiff.neg_fumes (a : AirDiff) : (-a).fumes = -a.fumes := rfl

instance : AddCommGroup AirDiff where
  add_assoc a b c := by ext <;> simp [add_assoc]
  zero_add a := by ext <;> simp
  add_zero a := by ext <;> simp
  add_comm a b := by ext <;> simp [add_comm]
  neg_add_cancel a := by ext <;> simp
  nsmul := nsmulRec
  zsmul := zsmulRec

/-- A per-tile delta buffer (one of the `[[_; HEIGHT]; WIDTH]` result arrays). -/
def Grid (W H : ℕ) (M : Type) := Fin W → Fin H → M

instance {W H : ℕ} {M : Type} [Zero M] : Zero (Grid W H M) := ⟨fun _ _ => 0⟩

/-- `buffer[x][y] += d`, functionally. -/
def addAt {W H : ℕ} {M : Type} [Add M] (g : Grid W H M) (p : Fin W × Fin H) (d : M) :
    Grid W H M :=
  fun a b => if (a, b) = p then g a b + d else g a b

/-- Sum of a delta buffer over the whole grid. -/
def sumAll {W H : ℕ} {M : Type} [AddCommMonoid M] (g : Grid W H M) : M :=
  ∑ a : Fin W, ∑ b : Fin H, g a b

theorem sumAll_addAt {W H : ℕ} {M : Type} [AddCommGroup M] (g : Grid W H M)
    (p : Fin W × Fin H) (d : M) : sumAll (addAt g p d) = sumAll g + d := by
  classical
  unfold sumAll addAt
  have h1 : ∀ (a : Fin W) (b : Fin H),
      (if (a, b) = p then g a b + d else g a b) = g a b + (if (a, b) = p then d else 0) := by
    intro a b
    split <;> simp
  simp only [h1, Finset.sum_add_distrib]
  have h2 : (∑ a : Fin W, ∑ b : Fin H, if (a, b) = p then d else 0)
      = ∑ q : Fin W × Fin H, if q = p then d else 0 :=
    (Fintype.sum_prod_type (fun q : Fin W × Fin H => if q = p then d else 0)).symm
  rw [h2, Finset.sum_ite_eq' Finset.univ p (fun _ => d)]
  simp

/-- `PRESSURE_SPREAD_RATE` (src/air.rs line 12). -/
def PRESSURE_SPREAD_RATE : ℚ := 0.01

/-- `DIFFUSION_SPREAD_RATE` (src/air.rs line 13). -/
def DIFFUSION_SPREAD_RATE : ℚ := 0.05

/-- Equalizing-diffusion trade of one source/neighbour pair (src/air.rs lines
42-58): per species, `fraction * neighbour_pressure` clamped into
`[-neighbour_stock, own_stock / 8]`, times `DIFFUSION_SPREAD_RATE * delta_time`.
The result is credited to the neighbour and debited from the source. -/
def airDiffusionTrade (air neighbour_air : AirData) (neighbour_air_pressure delta_time : ℚ) :
    AirDiff where
  nitrogen := rclamp (air.nitrogen_fraction * neighbour_air_pressure)
      (-neighbour_air.nitrogen) (air.nitrogen / 8) * DIFFUSION_SPREAD_RATE * delta_time
  oxygen := rclamp (air.oxygen_fraction * neighbour_air_pressure)
      (-neighbour_air.oxygen) (air.oxygen / 8) * DIFFUSION_SPREAD_RATE * delta_time
  fumes := rclamp (air.fumes_fraction * neighbour_air_pressure)
      (-neighbour_air.fumes) (air.fumes / 8) * DIFFUSION_SPREAD_RATE * delta_time

/-- Pressure-driven bulk flow of one source/neighbour pair (src/air.rs lines
68-87). When the guard `neighbour_air_pressure < air_pressure` fails the code
adds nothing, here expressed by a zero delta. `sq` models `f32::sqrt`. -/
def airPressureDelta (sq : ℚ → ℚ) (air : AirData) (air_pressure neighbour_air_pressure
    delta_time : ℚ) : AirDiff :=
  if neighbour_air_pressure < air_pressure then
    let pressure_delta := air_pressure - neighbour_air_pressure
    let applied_pressure_delta :=
      min (sq (pressure_delta * PRESSURE_SPREAD_RATE) * delta_time) (air_pressure / 8)
    { nitrogen := applied_pressure_delta * air.nitrogen_fraction
      oxygen := applied_pressure_delta * air.oxygen_fraction
      fumes := applied_pressure_delta * air.fumes_fraction }
  else 0

/-- Body of the inner loop of `calculate_air_diff` (src/air.rs lines 38-88):
one neighbour of one source tile. Wall neighbours are filtered out. -/
def airPairStep {W H : ℕ} (sq : ℚ → ℚ) (delta_time : ℚ) (tiles : Fin W → Fin H → Tile)
    (src : Fin W × Fin H) (air : AirData) (air_pressure : ℚ)
    (g : Grid W H AirDiff) (nb : Fin W × Fin H) : Grid W H AirDiff :=
  match (tiles nb.1 nb.2).tile_type with
  | .Wall => g
  | .Ground neighbour_air neighbour_liquids =>
    let neighbour_air_pressure :=
      neighbour_air.air_pressure (neighbour_liquids.get_level AnyLiquid)
    let traded := airDiffusionTrade air neighbour_air neighbour_air_pressure delta_time
    let g := addAt (addAt g nb traded) src (-traded)
    let pd := airPressureDelta sq air air_pressure neighbour_air_pressure delta_time
    addAt (addAt g nb pd) src (-pd)

/-- Body of the outer loop of `calculate_air_diff` (src/air.rs lines 17-89):
one source tile against all its ground neighbours. -/
def airSourceStep {W H : ℕ} (sq : ℚ → ℚ) (delta_time : ℚ) (tiles : Fin W → Fin H → Tile)
    (g : Grid W H AirDiff) (src : Fin W × Fin H) : Grid W H AirDiff :=
  match (tiles src.1 src.2).tile_type with
  | .Wall => g
  | .Ground air liquids =>
    let air_pressure := air.air_pressure (liquids.get_level AnyLiquid)
    (neighbour_coords src.1 src.2).foldl (airPairStep sq delta_time tiles src air air_pressure) g

/-- `Map::calculate_air_diff` (src/air.rs lines 9-92), over the tile grid,
with `f32::sqrt` abstracted as `sq`. -/
def calculate_air_diff {W H : ℕ} (sq : ℚ → ℚ) (tiles : Fin W → Fin H → Tile)
    (delta_time : ℚ) : Grid W H AirDiff :=
  (all_tile_coords W H).foldl (airSourceStep sq delta_time tiles) 0

/-- Body of the inner loop of `calculate_liquid_diff` (src/liquids.rs lines
32-46): one neighbour of one source tile of liquid kind `L`. -/
def liquidPairStep {W H : ℕ} (sq : ℚ → ℚ) (L : Liquid) (delta_time : ℚ)
    (tiles : Fin W → Fin H → Tile) (src : Fin W × Fin H) (total_level liquid_level : ℚ)
    (g : Grid W H ℚ) (nb : Fin W × Fin H) : Grid W H ℚ :=
  match (tiles nb.1 nb.2).tile_type with
  | .Wall => g
  | .Ground _ neighbour_liquids =>
    let neighbour_liquid_level := neighbour_liquids.get_level L
    let neighbour_total_level := (tiles nb.1 nb.2).ground_level + neighbour_liquid_level
    if total_level ≤ neighbour_total_level ∨ LiquidData.MAX_LEVEL ≤ neighbour_liquid_level then g
    else
      let height_delta := total_level - neighbour_total_level
      let applied_height_delta :=
        min (sq (height_delta * L.spread_rate) * delta_time) (liquid_level / 0.8)
      addAt (addAt g nb applied_height_delta) src (-applied_height_delta)

/-- Body of the outer loop of `calculate_liquid_diff` (src/liquids.rs lines
10-47): one source tile, skipped unless its level reaches
`MINIMAL_HEIGHT_TO_SPREAD`. -/
def liquidSourceStep {W H : ℕ} (sq : ℚ → ℚ) (L : Liquid) (delta_time : ℚ)
    (tiles : Fin W → Fin H → Tile) (g : Grid W H ℚ) (src : Fin W × Fin H) : Grid W H ℚ :=
  match (tiles src.1 src.2).tile_type with
  | .Wall => g
  | .Ground _ liquids =>
    let ground_level := (tiles src.1 src.2).ground_level
    let liquid_level := liquids.get_level L
    let total_level := ground_level + liquid_level
    if liquid_level < L.minimal_height_to_spread then g
    else
      (neighbour_coords src.1 src.2).foldl
        (liquidPairStep sq L delta_time tiles src total_level liquid_level) g

/-- `Map::calculate_liquid_diff::<L>` (src/liquids.rs lines 4-50), with
`f32::sqrt` abstracted as `sq`. -/
def calculate_liquid_diff {W H : ℕ} (sq : ℚ → ℚ) (L : Liquid)
    (tiles : Fin W → Fin H → Tile) (delta_time : ℚ) : Grid W H ℚ :=
  (all_tile_coords W H).foldl (liquidSourceStep sq L delta_time tiles) 0

theorem sumAll_foldl {W H : ℕ} {M σ : Type} [AddCommGroup M]
    (f : Grid W H M → σ → Grid W H M) (hf : ∀ g s, sumAll (f g s) = sumAll g) :
    ∀ (l : List σ) (g : Grid W H M), sumAll (l.foldl f g) = sumAll g := by
  intro l
  induction l with
  | nil => intro g; rfl
  | cons s l ih => intro g; rw [List.foldl_cons, ih, hf]

theorem sumAll_airPairStep {W H : ℕ} (sq : ℚ → ℚ) (delta_time : ℚ)
    (tiles : Fin W → Fin H → Tile) (src : Fin W × Fin H) (air : AirData) (p : ℚ)
    (g : Grid W H AirDiff) (nb : Fin W × Fin H) :
    sumAll (airPairStep sq delta_time tiles src air p g nb) = sumAll g := by
  unfold airPairStep
  split
  · rfl
  · simp only [sumAll_addAt]
    abel

theorem sumAll_airSourceStep {W H : ℕ} (sq : ℚ → ℚ) (delta_time : ℚ)
    (tiles : Fin W → Fin H → Tile) (g : Grid W H AirDiff) (src : Fin W × Fin H) :
    sumAll (airSourceStep sq delta_time tiles g src) = sumAll g := by
  unfold airSourceStep
  split
  · rfl
  · exact sumAll_foldl _ (fun g nb => sumAll_airPairStep sq delta_time tiles src _ _ g nb) _ g

theorem sumAll_liquidPairStep {W H : ℕ} (sq : ℚ → ℚ) (L : Liquid) (delta_time : ℚ)
    (tiles : Fin W → Fin H → Tile) (src : Fin W × Fin H) (tl ll : ℚ)
    (g : Grid W H ℚ) (nb : Fin W × Fin H) :
    sumAll (liquidPairStep sq L delta_time tiles src tl ll g nb) = sumAll g := by
  unfold liquidPairStep
  split
  · rfl
  · dsimp only
    split
    · rfl
    · simp only [sumAll_addAt]
      ring

theorem sumAll_liquidSourceStep {W H : ℕ} (sq : ℚ → ℚ) (L : Liquid) (delta_time : ℚ)
    (tiles : Fin W → Fin H → Tile) (g : Grid W H ℚ) (src : Fin W × Fin H) :
    sumAll (liquidSourceStep sq L delta_time tiles g src) = sumAll g := by
  unfold liquidSourceStep
  split
  · rfl
  · dsimp only
    split
    · rfl
    · exact sumAll_foldl _ (fun g nb => sumAll_liquidPairStep sq L delta_time tiles src _ _ g nb) _ g

@[simp] theorem zero_grid_apply {W H : ℕ} {M : Type} [Zero M] (a : Fin W) (b : Fin H) :
    (0 : Grid W H M) a b = 0 := rfl

theorem sumAll_zero_grid {W H : ℕ} {M : Type} [AddCommMonoid M] :
    sumAll (0 : Grid W H M) = 0 := by
  unfold sumAll
  simp

/-- C1: for every grid snapshot, every `delta_time` and every model of
`f32::sqrt`, the per-species air deltas of `calculate_air_diff` sum to zero
over the whole grid, and for every liquid kind the per-tile deltas of
`calculate_liquid_diff` sum to zero: every amount subtracted from a giver
tile is added to the receiver tile, so diffusion conserves total mass. -/
theorem diffusion_conserves_mass {W H : ℕ} (sq : ℚ → ℚ) (tiles : Fin W → Fin H → Tile)
    (delta_time : ℚ) :
    sumAll (calculate_air_diff sq tiles delta_time) = (0 : AirDiff) ∧
    ∀ L : Liquid, sumAll (calculate_liquid_diff sq L tiles delta_time) = (0 : ℚ) := by
  constructor
  · rw [calculate_air_diff,
      sumAll_foldl _ (fun g src => sumAll_airSourceStep sq delta_time tiles g src),
      sumAll_zero_grid]
  · intro L
    rw [calculate_liquid_diff,
      sumAll_foldl _ (fun g src => sumAll_liquidSourceStep sq L delta_time tiles g src),
      sumAll_zero_grid]

theorem neighbour_tile_coords_nodup (W H x y : ℕ) : (neighbour_tile_coords W H x y).Nodup := by
  unfold neighbour_tile_coords
  by_cases hx0 : 0 < x <;> by_cases hy0 : 0 < y <;>
    by_cases hxw : x < W - 1 <;> by_cases hyh : y < H - 1 <;>
    simp [hx0, hy0, hxw, hyh, List.filterMap_cons, Prod.ext_iff] <;> omega

theorem neighbour_tile_coords_not_self (W H x y : ℕ) :
    (x, y) ∉ neighbour_tile_coords W H x y := by
  unfold neighbour_tile_coords
  by_cases hx0 : 0 < x <;> by_cases hy0 : 0 < y <;>
    by_cases hxw : x < W - 1 <;> by_cases hyh : y < H - 1 <;>
    simp [hx0, hy0, hxw, hyh, List.filterMap_cons, Prod.ext_iff] <;> omega

theorem neighbour_tile_coords_mem (W H x y : ℕ) (hx : x < W) (hy : y < H) (p : ℕ × ℕ) :
    p ∈ neighbour_tile_coords W H x y ↔
      p.1 < W ∧ p.2 < H ∧ p ≠ (x, y) ∧
      p.1 ≤ x + 1 ∧ x ≤ p.1 + 1 ∧ p.2 ≤ y + 1 ∧ y ≤ p.2 + 1 := by
  obtain ⟨a, b⟩ := p
  unfold neighbour_tile_coords
  by_cases hx0 : 0 < x <;> by_cases hy0 : 0 < y <;>
    by_cases hxw : x < W - 1 <;> by_cases hyh : y < H - 1 <;>
    simp [hx0, hy0, hxw, hyh, List.filterMap_cons, Prod.ext_iff] <;> omega

/-- C9: `neighbour_tile_coords` enumerates exactly the in-bounds cells of the
8-neighbourhood (Chebyshev distance 1), with no duplicates and never the tile
itself; concretely, on a 10 by 10 grid the corner (0,0) yields exactly
(0,1), (1,0), (1,1), the interior (5,5) yields exactly its 8 neighbours, and
on a 10 by 1 grid (1,0) yields exactly (0,0) and (2,0). -/
theorem neighbour_tile_coords_exact :
    (∀ W H x y : ℕ, x < W → y < H →
      (neighbour_tile_coords W H x y).Nodup ∧
      (x, y) ∉ neighbour_tile_coords W H x y ∧
      ∀ p : ℕ × ℕ, p ∈ neighbour_tile_coords W H x y ↔
        p.1 < W ∧ p.2 < H ∧ p ≠ (x, y) ∧
        p.1 ≤ x + 1 ∧ x ≤ p.1 + 1 ∧ p.2 ≤ y + 1 ∧ y ≤ p.2 + 1) ∧
    neighbour_tile_coords 10 10 0 0 = [(0, 1), (1, 0), (1, 1)] ∧
    neighbour_tile_coords 10 10 5 5 =
      [(4, 4), (4, 5), (4, 6), (5, 4), (5, 6), (6, 4), (6, 5), (6, 6)] ∧
    neighbour_tile_coords 10 1 1 0 = [(0, 0), (2, 0)] :=
  ⟨fun W H x y hx hy =>
    ⟨neighbour_tile_coords_nodup W H x y, neighbour_tile_coords_not_self W H x y,
      neighbour_tile_coords_mem W H x y hx hy⟩,
    by decide, by decide, by decide⟩

/-- Witness for `neighbour_tile_coords_exact`: its general part applied to the
corner (0,0) of a 10 by 10 grid. -/
theorem neighbour_tile_coords_exact_witness :
    (0 : ℕ) < 10 ∧ ((0, 1) ∈ neighbour_tile_coords 10 10 0 0 ∧
      (0, 0) ∉ neighbour_tile_coords 10 10 0 0) :=
  ⟨by decide,
    ((neighbour_tile_coords_exact.1 10 10 0 0 (by decide) (by decide)).2.2 (0, 1)).mpr
      (by decide),
    (neighbour_tile_coords_exact.1 10 10 0 0 (by decide) (by decide)).2.1⟩

theorem rclamp_scaled_bounds (v lo hi t : ℚ) (hlo : lo ≤ 0) (hhi : 0 ≤ hi)
    (ht0 : 0 ≤ t) (ht1 : t ≤ 1) : lo ≤ rclamp v lo hi * t ∧ rclamp v lo hi * t ≤ hi := by
  have hc_lo : lo ≤ rclamp v lo hi := le_max_left _ _
  have hc_hi : rclamp v lo hi ≤ hi := max_le (hlo.trans hhi) (min_le_right _ _)
  rcases le_or_lt 0 (rclamp v lo hi) with hc | hc
  · constructor
    · exact hlo.trans (mul_nonneg hc ht0)
    · calc rclamp v lo hi * t ≤ rclamp v lo hi * 1 := by
            exact mul_le_mul_of_nonneg_left ht1 hc
        _ = rclamp v lo hi := mul_one _
        _ ≤ hi := hc_hi
  · constructor
    · calc lo ≤ rclamp v lo hi := hc_lo
        _ = rclamp v lo hi * 1 := (mul_one _).symm
        _ ≤ rclamp v lo hi * t := by nlinarith
    · exact (mul_nonpos_of_nonpos_of_nonneg hc.le ht0).trans hhi

/-- C4 (amended): each species of the equalizing-diffusion trade equals the
source's species fraction times the neighbour's pressure, clamped into
[-neighbour stock, own stock / 8], then scaled by `DIFFUSION_SPREAD_RATE *
delta_time`; consequently, whenever `0 ≤ delta_time`,
`DIFFUSION_SPREAD_RATE * delta_time ≤ 1` and the two stocks are nonnegative,
a tile gives at most 1/8 of its own stock of the species to one neighbour in
one exchange and takes at most the neighbour's full stock. (Without the bound
on `delta_time` the consequence fails, see
`air_diffusion_trade_counterexample`.) -/
theorem air_diffusion_trade_clamped (air neighbour_air : AirData)
    (neighbour_air_pressure delta_time : ℚ) :
    ((airDiffusionTrade air neighbour_air neighbour_air_pressure delta_time).nitrogen
        = rclamp (air.nitrogen_fraction * neighbour_air_pressure)
            (-neighbour_air.nitrogen) (air.nitrogen / 8)
            * DIFFUSION_SPREAD_RATE * delta_time ∧
      (airDiffusionTrade air neighbour_air neighbour_air_pressure delta_time).oxygen
        = rclamp (air.oxygen_fraction * neighbour_air_pressure)
            (-neighbour_air.oxygen) (air.oxygen / 8)
            * DIFFUSION_SPREAD_RATE * delta_time ∧
      (airDiffusionTrade air neighbour_air neighbour_air_pressure delta_time).fumes
        = rclamp (air.fumes_fraction * neighbour_air_pressure)
            (-neighbour_air.fumes) (air.fumes / 8)
            * DIFFUSION_SPREAD_RATE * delta_time) ∧
    (0 ≤ delta_time → DIFFUSION_SPREAD_RATE * delta_time ≤ 1 →
      (0 ≤ air.nitrogen → 0 ≤ neighbour_air.nitrogen →
        -neighbour_air.nitrogen
            ≤ (airDiffusionTrade air neighbour_air neighbour_air_pressure delta_time).nitrogen ∧
          (airDiffusionTrade air neighbour_air neighbour_air_pressure delta_time).nitrogen
            ≤ air.nitrogen / 8) ∧
      (0 ≤ air.oxygen → 0 ≤ neighbour_air.oxygen →
        -neighbour_air.oxygen
            ≤ (airDiffusionTrade air neighbour_air neighbour_air_pressure delta_time).oxygen ∧
          (airDiffusionTrade air neighbour_air neighbour_air_pressure delta_time).oxygen
            ≤ air.oxygen / 8) ∧
      (0 ≤ air.fumes → 0 ≤ neighbour_air.fumes →
        -neighbour_air.fumes
            ≤ (airDiffusionTrade air neighbour_air neighbour_air_pressure delta_time).fumes ∧
          (airDiffusionTrade air neighbour_air neighbour_air_pressure delta_time).fumes
            ≤ air.fumes / 8)) := by
  refine ⟨⟨rfl, rfl, rfl⟩, fun hdt hr => ?_⟩
  have key : ∀ v own nbamt : ℚ, 0 ≤ own → 0 ≤ nbamt →
      -nbamt ≤ rclamp v (-nbamt) (own / 8) * DIFFUSION_SPREAD_RATE * delta_time ∧
      rclamp v (-nbamt) (own / 8) * DIFFUSION_SPREAD_RATE * delta_time ≤ own / 8 := by
    intro v own nbamt hown hnb
    have h := rclamp_scaled_bounds v (-nbamt) (own / 8) (DIFFUSION_SPREAD_RATE * delta_time)
      (by linarith) (by linarith)
      (mul_nonneg (by norm_num [DIFFUSION_SPREAD_RATE]) hdt) hr
    rw [mul_assoc]
    exact h
  exact ⟨fun h1 h2 => key _ _ _ h1 h2, fun h1 h2 => key _ _ _ h1 h2,
    fun h1 h2 => key _ _ _ h1 h2⟩

/-- Witness for `air_diffusion_trade_clamped`: tile with 8 nitrogen next to a
pure-oxygen tile, `delta_time = 1`; the bound hypotheses hold and the traded
nitrogen stays within [-0, 1]. -/
theorem air_diffusion_trade_clamped_witness :
    (0 : ℚ) ≤ 1 ∧ DIFFUSION_SPREAD_RATE * 1 ≤ 1 ∧
    -(0 : ℚ) ≤ (airDiffusionTrade ⟨8, 0, 0⟩ ⟨0, 8, 0⟩ 8 1).nitrogen ∧
    (airDiffusionTrade ⟨8, 0, 0⟩ ⟨0, 8, 0⟩ 8 1).nitrogen ≤ 8 / 8 := by
  have h := ((air_diffusion_trade_clamped ⟨8, 0, 0⟩ ⟨0, 8, 0⟩ 8 1).2
    (by norm_num) (by norm_num [DIFFUSION_SPREAD_RATE])).1 (by norm_num) (by norm_num)
  exact ⟨by norm_num, by norm_num [DIFFUSION_SPREAD_RATE], h.1, h.2⟩

/-- The 2 by 1 grid used to refute the unconditional 1/8 bound of C4:
tile (0,0) holds 8 nitrogen, tile (1,0) holds 8 oxygen, no liquids. -/
def mapC4 : Fin 2 → Fin 1 → Tile := fun x _ =>
  if x = 0 then ⟨0, .Ground ⟨8, 0, 0⟩ .None⟩ else ⟨0, .Ground ⟨0, 8, 0⟩ .None⟩

/-- Counterexample to C4 as stated: with `delta_time = 100`, tile (0,0)
(stock 8 of nitrogen) gives 5 units of nitrogen to its single neighbour in
one exchange of `calculate_air_diff`, and 5 exceeds 8/8. -/
theorem air_diffusion_trade_counterexample :
    (calculate_air_diff sqrtQ mapC4 100 1 0).nitrogen = 5 ∧
    (calculate_air_diff sqrtQ mapC4 100 0 0).nitrogen = -5 ∧
    ¬ ((5 : ℚ) ≤ 8 / 8) := by
  have hcoords : all_tile_coords 2 1 = [(0, 0), (1, 0)] := by decide
  have hnb0 : neighbour_coords (0 : Fin 2) (0 : Fin 1) = [(1, 0)] := by decide
  have hnb1 : neighbour_coords (1 : Fin 2) (0 : Fin 1) = [(0, 0)] := by decide
  refine ⟨?_, ?_, by norm_num⟩ <;>
    norm_num [calculate_air_diff, hcoords, hnb0, hnb1, airSourceStep, airPairStep,
      airDiffusionTrade, airPressureDelta, AirData.air_pressure, AirData.nitrogen_fraction,
      AirData.oxygen_fraction, AirData.fumes_fraction, LiquidData.get_level, AnyLiquid,
      LiquidData.MAX_LEVEL, DIFFUSION_SPREAD_RATE, PRESSURE_SPREAD_RATE, rclamp, addAt,
      mapC4, max_def, min_def, Prod.ext_iff, Fin.ext_iff]

theorem sqrtQ_natCast (n : ℕ) : sqrtQ (n : ℚ) = (isqrt n : ℚ) := by
  rw [sqrtQ]
  rcases Nat.eq_zero_or_pos n with h | h
  · subst h
    simp [isqrt, isqrtAux]
  · rw [if_neg (by exact_mod_cast Nat.not_le.mpr h)]
    simp [Rat.num_natCast, Rat.den_natCast]

theorem sqrtQ_four : sqrtQ 4 = 2 := by
  have h : ((4 : ℕ) : ℚ) = (4 : ℚ) := by norm_num
  rw [← h, sqrtQ_natCast, show isqrt 4 = 2 from by decide]
  norm_num

theorem sqrtQ_one : sqrtQ 1 = 1 := by
  have h : ((1 : ℕ) : ℚ) = (1 : ℚ) := by norm_num
  rw [← h, sqrtQ_natCast, show isqrt 1 = 1 from by decide]

theorem fractions_sum_to_one (air : AirData) (h : air.total ≠ 0) :
    air.nitrogen_fraction + air.oxygen_fraction + air.fumes_fraction = 1 := by
  have h2 : air.nitrogen + air.oxygen + air.fumes ≠ 0 := h
  unfold AirData.nitrogen_fraction AirData.oxygen_fraction AirData.fumes_fraction
  rw [div_add_div_same, div_add_div_same, div_self h2]

/-- C5 (amended): pressure-driven bulk flow from a tile to a neighbour occurs
exactly when the tile's liquid-adjusted total pressure (`AirData.air_pressure`,
total divided by `1 - liquid_level / MAX_LEVEL` floored at 0.001) strictly
exceeds the neighbour's; the moved total then equals
`sqrt(pressure_delta * PRESSURE_SPREAD_RATE) * delta_time` capped at the
source's pressure / 8, and it is split across nitrogen/oxygen/fumes in
proportion to the source's species fractions. (The claim instead places
`delta_time` inside the square root, refuted by
`air_pressure_flow_counterexample`.) -/
theorem air_pressure_flow_characterization (sq : ℚ → ℚ) (air neighbour_air : AirData)
    (liquid_level neighbour_liquid_level delta_time : ℚ) :
    (¬ neighbour_air.air_pressure neighbour_liquid_level
        < air.air_pressure liquid_level →
      airPressureDelta sq air (air.air_pressure liquid_level)
        (neighbour_air.air_pressure neighbour_liquid_level) delta_time = 0) ∧
    (neighbour_air.air_pressure neighbour_liquid_level < air.air_pressure liquid_level →
      (airPressureDelta sq air (air.air_pressure liquid_level)
          (neighbour_air.air_pressure neighbour_liquid_level) delta_time
        = { nitrogen := min (sq ((air.air_pressure liquid_level
                - neighbour_air.air_pressure neighbour_liquid_level)
                  * PRESSURE_SPREAD_RATE) * delta_time)
              (air.air_pressure liquid_level / 8) * air.nitrogen_fraction
            oxygen := min (sq ((air.air_pressure liquid_level
                - neighbour_air.air_pressure neighbour_liquid_level)
                  * PRESSURE_SPREAD_RATE) * delta_time)
              (air.air_pressure liquid_level / 8) * air.oxygen_fraction
            fumes := min (sq ((air.air_pressure liquid_level
                - neighbour_air.air_pressure neighbour_liquid_level)
                  * PRESSURE_SPREAD_RATE) * delta_time)
              (air.air_pressure liquid_level / 8) * air.fumes_fraction }) ∧
      (air.total ≠ 0 →
        (airPressureDelta sq air (air.air_pressure liquid_level)
            (neighbour_air.air_pressure neighbour_liquid_level) delta_time).nitrogen
          + (airPressureDelta sq air (air.air_pressure liquid_level)
              (neighbour_air.air_pressure neighbour_liquid_level) delta_time).oxygen
          + (airPressureDelta sq air (air.air_pressure liquid_level)
              (neighbour_air.air_pressure neighbour_liquid_level) delta_time).fumes
          = min (sq ((air.air_pressure liquid_level
                - neighbour_air.air_pressure neighbour_liquid_level)
                  * PRESSURE_SPREAD_RATE) * delta_time)
              (air.air_pressure liquid_level / 8))) := by
  constructor
  · intro h
    rw [airPressureDelta, if_neg h]
  · intro h
    constructor
    · rw [airPressureDelta, if_pos h]
    · intro htot
      rw [airPressureDelta, if_pos h]
      have hf := fractions_sum_to_one air htot
      dsimp only
      rw [← mul_add, ← mul_add, hf, mul_one]

/-- Witness for `air_pressure_flow_characterization`: concrete tile with air
404/0/0 against a neighbour with air 4/0/0, no liquids, `delta_time = 1/4`;
the guard holds and the moved nitrogen evaluates to 1/2. -/
theorem air_pressure_flow_characterization_witness :
    airPressureDelta sqrtQ ⟨404, 0, 0⟩ (AirData.air_pressure ⟨404, 0, 0⟩ 0)
        (AirData.air_pressure ⟨4, 0, 0⟩ 0) (1 / 4)
      = { nitrogen := min (sqrtQ ((AirData.air_pressure ⟨404, 0, 0⟩ 0
              - AirData.air_pressure ⟨4, 0, 0⟩ 0) * PRESSURE_SPREAD_RATE) * (1 / 4))
            (AirData.air_pressure ⟨404, 0, 0⟩ 0 / 8) * AirData.nitrogen_fraction ⟨404, 0, 0⟩
          oxygen := min (sqrtQ ((AirData.air_pressure ⟨404, 0, 0⟩ 0
              - AirData.air_pressure ⟨4, 0, 0⟩ 0) * PRESSURE_SPREAD_RATE) * (1 / 4))
            (AirData.air_pressure ⟨404, 0, 0⟩ 0 / 8) * AirData.oxygen_fraction ⟨404, 0, 0⟩
          fumes := min (sqrtQ ((AirData.air_pressure ⟨404, 0, 0⟩ 0
              - AirData.air_pressure ⟨4, 0, 0⟩ 0) * PRESSURE_SPREAD_RATE) * (1 / 4))
            (AirData.air_pressure ⟨404, 0, 0⟩ 0 / 8) * AirData.fumes_fraction ⟨404, 0, 0⟩ } :=
  (air_pressure_flow_characterization sqrtQ ⟨404, 0, 0⟩ ⟨4, 0, 0⟩ 0 0 (1 / 4)).2
    (by norm_num [AirData.air_pressure, LiquidData.MAX_LEVEL, max_def]) |>.1

/-- Modelled from the claim C5 wording: the same pressure-driven flow but with
the moved total equal to `sqrt(pressure_delta * rate * delta_time)` — the
`delta_time` factor inside the square root — capped at pressure / 8. -/
def airPressureDelta_claim (sq : ℚ → ℚ) (air : AirData) (air_pressure neighbour_air_pressure
    delta_time : ℚ) : AirDiff :=
  if neighbour_air_pressure < air_pressure then
    let applied := min (sq ((air_pressure - neighbour_air_pressure)
        * PRESSURE_SPREAD_RATE * delta_time)) (air_pressure / 8)
    { nitrogen := applied * air.nitrogen_fraction
      oxygen := applied * air.oxygen_fraction
      fumes := applied * air.fumes_fraction }
  else 0

/-- Counterexample to C5 as stated: with pressures 404 vs 4 and
`delta_time = 1/4` the code (src/air.rs line 72: `(pressure_delta * rate).sqrt()
* delta_time`) moves 1/2 nitrogen, while the claim's formula
`sqrt(pressure_delta * rate * delta_time)` predicts 1. -/
theorem air_pressure_flow_counterexample :
    (airPressureDelta sqrtQ ⟨404, 0, 0⟩ 404 4 (1 / 4)).nitrogen = 1 / 2 ∧
    (airPressureDelta_claim sqrtQ ⟨404, 0, 0⟩ 404 4 (1 / 4)).nitrogen = 1 ∧
    ((1 : ℚ) / 2) ≠ 1 := by
  refine ⟨?_, ?_, by norm_num⟩ <;>
    norm_num [airPressureDelta, airPressureDelta_claim, AirData.nitrogen_fraction,
      PRESSURE_SPREAD_RATE, sqrtQ_four, sqrtQ_one, min_def]

@[simp] theorem addAt_apply {W H : ℕ} {M : Type} [AddZeroClass M] (g : Grid W H M)
    (p : Fin W × Fin H) (d : M) (a : Fin W) (b : Fin H) :
    addAt g p d a b = g a b + if (a, b) = p then d else 0 := by
  unfold addAt
  by_cases h : (a, b) = p <;> simp [h]

theorem foldl_addContrib {W H : ℕ} {σ : Type} (F : Grid W H ℚ → σ → Grid W H ℚ)
    (C : σ → Fin W × Fin H → ℚ)
    (hF : ∀ (g : Grid W H ℚ) (s : σ) (a : Fin W) (b : Fin H), F g s a b = g a b + C s (a, b)) :
    ∀ (l : List σ) (g : Grid W H ℚ) (a : Fin W) (b : Fin H),
      (l.foldl F g) a b = g a b + (l.map (fun s => C s (a, b))).sum := by
  intro l
  induction l with
  | nil => intro g a b; simp
  | cons s t ih =>
    intro g a b
    rw [List.foldl_cons, ih, hF, List.map_cons, List.sum_cons]
    ring

/-- Modelled from the amended C6 wording: the amount of liquid `L` one source
tile transfers to one neighbour, zero unless the source is ground with level
at least `MINIMAL_HEIGHT_TO_SPREAD` and the neighbour is ground with strictly
lower total surface height and level below `MAX_LEVEL`; otherwise
`sqrt(height_delta * SPREAD_RATE) * delta_time` capped at
`source_liquid_level / 0.8`. -/
def liquid_transfer_spec {W H : ℕ} (sq : ℚ → ℚ) (L : Liquid) (tiles : Fin W → Fin H → Tile)
    (delta_time : ℚ) (src nb : Fin W × Fin H) : ℚ :=
  match (tiles src.1 src.2).tile_type, (tiles nb.1 nb.2).tile_type with
  | .Ground _ liquids, .Ground _ neighbour_liquids =>
    let liquid_level := liquids.get_level L
    let total_level := (tiles src.1 src.2).ground_level + liquid_level
    let neighbour_liquid_level := neighbour_liquids.get_level L
    let neighbour_total_level := (tiles nb.1 nb.2).ground_level + neighbour_liquid_level
    if liquid_level < L.minimal_height_to_spread then 0
    else if total_level ≤ neighbour_total_level
        ∨ LiquidData.MAX_LEVEL ≤ neighbour_liquid_level then 0
    else min (sq ((total_level - neighbour_total_level) * L.spread_rate) * delta_time)
      (liquid_level / 0.8)
  | _, _ => 0

/-- The liquid delta grid as the amended claim describes it: for every
source/neighbour pair, `liquid_transfer_spec` is credited to the neighbour and
debited from the source. -/
def liquid_diff_spec {W H : ℕ} (sq : ℚ → ℚ) (L : Liquid) (tiles : Fin W → Fin H → Tile)
    (delta_time : ℚ) : Grid W H ℚ :=
  fun a b =>
    ((all_tile_coords W H).map (fun src =>
      ((neighbour_coords src.1 src.2).map (fun nb =>
        liquid_transfer_spec sq L tiles delta_time src nb *
          ((if (a, b) = nb then 1 else 0) - (if (a, b) = src then 1 else 0)))).sum)).sum

theorem liquidPairStep_apply {W H : ℕ} (sq : ℚ → ℚ) (L : Liquid) (delta_time : ℚ)
    (tiles : Fin W → Fin H → Tile) (src : Fin W × Fin H) (air : AirData)
    (liquids : LiquidData) (hsrc : (tiles src.1 src.2).tile_type = .Ground air liquids)
    (hmin : ¬ liquids.get_level L < L.minimal_height_to_spread)
    (g : Grid W H ℚ) (nb : Fin W × Fin H) (a : Fin W) (b : Fin H) :
    liquidPairStep sq L delta_time tiles src
        ((tiles src.1 src.2).ground_level + liquids.get_level L) (liquids.get_level L) g nb a b
      = g a b + liquid_transfer_spec sq L tiles delta_time src nb *
          ((if (a, b) = nb then 1 else 0) - (if (a, b) = src then 1 else 0)) := by
  unfold liquidPairStep liquid_transfer_spec
  rw [hsrc]
  rcases hnb : (tiles nb.1 nb.2).tile_type with _ | ⟨nair, nliq⟩
  · simp
  · dsimp only
    rw [if_neg hmin]
    split
    · simp
    · simp only [addAt_apply]
      split_ifs <;> ring

theorem liquidSourceStep_apply {W H : ℕ} (sq : ℚ → ℚ) (L : Liquid) (delta_time : ℚ)
    (tiles : Fin W → Fin H → Tile) (g : Grid W H ℚ) (src : Fin W × Fin H)
    (a : Fin W) (b : Fin H) :
    liquidSourceStep sq L delta_time tiles g src a b
      = g a b + ((neighbour_coords src.1 src.2).map (fun nb =>
          liquid_transfer_spec sq L tiles delta_time src nb *
            ((if (a, b) = nb then 1 else 0) - (if (a, b) = src then 1 else 0)))).sum := by
  unfold liquidSourceStep
  rcases hsrc : (tiles src.1 src.2).tile_type with _ | ⟨air, liquids⟩
  · rw [List.sum_eq_zero, add_zero]
    intro x hx
    simp only [List.mem_map] at hx
    obtain ⟨nb, _, rfl⟩ := hx
    unfold liquid_transfer_spec
    rw [hsrc]
    simp
  · dsimp only
    by_cases hmin : liquids.get_level L < L.minimal_height_to_spread
    · rw [if_pos hmin, List.sum_eq_zero, add_zero]
      intro x hx
      simp only [List.mem_map] at hx
      obtain ⟨nb, _, rfl⟩ := hx
      unfold liquid_transfer_spec
      rw [hsrc]
      rcases (tiles nb.1 nb.2).tile_type with _ | ⟨nair, nliq⟩
      · simp
      · dsimp only
        rw [if_pos hmin]
        simp
    · rw [if_neg hmin]
      exact foldl_addContrib _
        (fun nb p => liquid_transfer_spec sq L tiles delta_time src nb *
          ((if p = nb then 1 else 0) - (if p = src then 1 else 0)))
        (fun g nb a b => liquidPairStep_apply sq L delta_time tiles src air liquids hsrc hmin g nb a b)
        (neighbour_coords src.1 src.2) g a b

/-- C6 (amended): `calculate_liquid_diff` for liquid kind `L` is exactly the
per-pair transfer scheme of the claim: a tile contributes outflow only if its
`L`-level is at least `MINIMAL_HEIGHT_TO_SPREAD`; flow goes only to ground
neighbours with strictly lower total surface height and `L`-level below
`MAX_LEVEL` (3.0); the amount credited to such a neighbour and debited from
the source is `sqrt(height_delta * SPREAD_RATE) * delta_time` capped at
`source_liquid_level / 0.8`. (The claim instead places `delta_time` inside
the square root, refuted by `liquid_transfer_counterexample`.) -/
theorem calculate_liquid_diff_eq_spec {W H : ℕ} (sq : ℚ → ℚ) (L : Liquid)
    (tiles : Fin W → Fin H → Tile) (delta_time : ℚ) :
    calculate_liquid_diff sq L tiles delta_time = liquid_diff_spec sq L tiles delta_time := by
  funext a b
  unfold calculate_liquid_diff liquid_diff_spec
  rw [foldl_addContrib (liquidSourceStep sq L delta_time tiles)
    (fun src p => ((neighbour_coords src.1 src.2).map (fun nb =>
      liquid_transfer_spec sq L tiles delta_time src nb *
        ((if p = nb then 1 else 0) - (if p = src then 1 else 0)))).sum)
    (fun g src a b => liquidSourceStep_apply sq L delta_time tiles g src a b)
    (all_tile_coords W H) 0 a b]
  simp

/-- Modelled from the claim C6 wording: transferred amount
`sqrt(height_delta * SPREAD_RATE * delta_time)` — `delta_time` inside the
square root — capped at `source_liquid_level / 0.8`. -/
def liquid_transfer_claim (sq : ℚ → ℚ) (L : Liquid)
    (height_delta source_liquid_level delta_time : ℚ) : ℚ :=
  min (sq (height_delta * L.spread_rate * delta_time)) (source_liquid_level / 0.8)

/-- The 2 by 1 grid used to refute C6 as stated: tile (0,0) is ground at
level 397 holding water 3, tile (1,0) is ground at level 0 with no liquid. -/
def mapC6 : Fin 2 → Fin 1 → Tile := fun x _ =>
  if x = 0 then ⟨397, .Ground AirData.new_default (.Water 3)⟩
  else ⟨0, .Ground AirData.new_default .None⟩

/-- Counterexample to C6 as stated: with height delta 400 and
`delta_time = 1/4`, `calculate_liquid_diff` (src/liquids.rs line 42:
`(height_delta * SPREAD_RATE).sqrt() * delta_time`) transfers 1/2 to the
neighbour, while the claim's formula `sqrt(height_delta * SPREAD_RATE *
delta_time)` (capped at 3 / 0.8) predicts 1. -/
theorem liquid_transfer_counterexample :
    calculate_liquid_diff sqrtQ Water mapC6 (1 / 4) 1 0 = 1 / 2 ∧
    liquid_transfer_claim sqrtQ Water 400 3 (1 / 4) = 1 ∧
    ((1 : ℚ) / 2) ≠ 1 := by
  have hcoords : all_tile_coords 2 1 = [(0, 0), (1, 0)] := by decide
  have hnb0 : neighbour_coords (0 : Fin 2) (0 : Fin 1) = [(1, 0)] := by decide
  have hnb1 : neighbour_coords (1 : Fin 2) (0 : Fin 1) = [(0, 0)] := by decide
  refine ⟨?_, ?_, by norm_num⟩
  · norm_num [calculate_liquid_diff, hcoords, hnb0, hnb1, liquidSourceStep, liquidPairStep,
      LiquidData.get_level, Water, LiquidData.MAX_LEVEL, addAt, mapC6, sqrtQ_four,
      min_def, Prod.ext_iff, Fin.ext_iff]
  · norm_num [liquid_transfer_claim, Water, sqrtQ_one, min_def]

/-- `Facing` (src/facing.rs): a cardinal direction; (0,0) is the North-West
corner, so North is -y, East is +x, South is +y, West is -x. -/
inductive Facing where
  | North
  | East
  | South
  | West
  deriving DecidableEq

/-- `Facing::move_coords_in_direction` (src/facing.rs lines 17-28). -/
def Facing.move_coords_in_direction {W H : ℕ} (f : Facing) (x : Fin W) (y : Fin H) :
    Option (Fin W × Fin H) :=
  match f with
  | .North =>
    if h : 0 < y.val then some (x, ⟨y.val - 1, by have := y.isLt; omega⟩) else Option.none
  | .East => if h : x.val < W - 1 then some (⟨x.val + 1, by omega⟩, y) else Option.none
  | .South => if h : y.val < H - 1 then some (x, ⟨y.val + 1, by omega⟩) else Option.none
  | .West =>
    if h : 0 < x.val then some (⟨x.val - 1, by have := x.isLt; omega⟩, y) else Option.none

/-- `AirLeveler<usize>` (src/air.rs), with in-bounds absolute coordinates. -/
structure AirLeveler (W H : ℕ) where
  x : Fin W
  y : Fin H
  nitrogen : ℚ
  oxygen : ℚ
  fumes : ℚ

/-- `OxygenUser<usize>` (src/air.rs), with in-bounds absolute coordinates. -/
structure OxygenUser (W H : ℕ) where
  x : Fin W
  y : Fin H
  change_per_sec : ℚ

/-- `AirPusher<usize>` (src/air.rs), with in-bounds absolute coordinates. -/
structure AirPusher (W H : ℕ) where
  x : Fin W
  y : Fin H
  direction : Facing
  amount : ℚ

/-- `LiquidLeveler<usize>` (src/liquids.rs), with in-bounds absolute
coordinates. -/
structure LiquidLeveler (W H : ℕ) where
  x : Fin W
  y : Fin H
  target : LiquidData

/-- One registered object, reduced to the effector records its
`ObjectProperties` capability interface yields (`air_levelers()`,
`oxygen_users()`, `air_pushers()`, `liquid_levelers()`), already in absolute
coordinates. -/
structure MapObject (W H : ℕ) where
  air_levelers : List (AirLeveler W H)
  oxygen_users : List (OxygenUser W H)
  air_pushers : List (AirPusher W H)
  liquid_levelers : List (LiquidLeveler W H)

/-- `Map` (src/lib.rs): the tile grid, the object registry in its fixed
iteration order, and the simulation clock. -/
structure Map (W H : ℕ) where
  tiles : Fin W → Fin H → Tile
  objects : List (MapObject W H)
  current_time : ℚ

/-- The `let Some(air) = tile.get_air_mut() else continue; mutate` pattern:
apply `f` to the air of the tile at `(x, y)` if it is ground, else do
nothing. -/
def modifyAirAt {W H : ℕ} (tiles : Fin W → Fin H → Tile) (x : Fin W) (y : Fin H)
    (f : AirData → AirData) : Fin W → Fin H → Tile :=
  fun a b =>
    if (a, b) = (x, y) then
      match (tiles a b).tile_type with
      | .Wall => tiles a b
      | .Ground air liquids => ⟨(tiles a b).ground_level, .Ground (f air) liquids⟩
    else tiles a b

/-- The corresponding pattern for the liquid field. -/
def modifyLiquidsAt {W H : ℕ} (tiles : Fin W → Fin H → Tile) (x : Fin W) (y : Fin H)
    (f : LiquidData → LiquidData) : Fin W → Fin H → Tile :=
  fun a b =>
    if (a, b) = (x, y) then
      match (tiles a b).tile_type with
      | .Wall => tiles a b
      | .Ground air liquids => ⟨(tiles a b).ground_level, .Ground air (f liquids)⟩
    else tiles a b

/-- First stage of `Map::apply_air_diff` (src/air.rs lines 95-103): add the
buffered delta to each ground tile's air, clamping each species at 0. -/
def applyAirDiffTiles {W H : ℕ} (tiles : Fin W → Fin H → Tile) (air_diff : Grid W H AirDiff) :
    Fin W → Fin H → Tile :=
  fun a b =>
    match (tiles a b).tile_type with
    | .Wall => tiles a b
    | .Ground air liquids =>
      ⟨(tiles a b).ground_level,
        .Ground
          { nitrogen := max (air.nitrogen + (air_diff a b).nitrogen) 0
            oxygen := max (air.oxygen + (air_diff a b).oxygen) 0
            fumes := max (air.fumes + (air_diff a b).fumes) 0 } liquids⟩

/-- `AirLeveler` application (src/air.rs lines 106-114): force-set the air of
the target ground tile. -/
def apply_air_leveler {W H : ℕ} (tiles : Fin W → Fin H → Tile) (l : AirLeveler W H) :
    Fin W → Fin H → Tile :=
  modifyAirAt tiles l.x l.y (fun _ => ⟨l.nitrogen, l.oxygen, l.fumes⟩)

/-- The air transform of one `OxygenUser` (src/air.rs lines 121-126): skipped
entirely when the tile's oxygen is below `change_per_sec * delta_time`,
otherwise that amount moves from oxygen to fumes. -/
def oxygen_user_effect (change_per_sec delta_time : ℚ) (air : AirData) : AirData :=
  if air.oxygen < change_per_sec * delta_time then air
  else
    { nitrogen := air.nitrogen
      oxygen := air.oxygen - change_per_sec * delta_time
      fumes := air.fumes + change_per_sec * delta_time }

/-- `OxygenUser` application (src/air.rs lines 116-127). -/
def apply_oxygen_user {W H : ℕ} (delta_time : ℚ) (tiles : Fin W → Fin H → Tile)
    (u : OxygenUser W H) : Fin W → Fin H → Tile :=
  modifyAirAt tiles u.x u.y (oxygen_user_effect u.change_per_sec delta_time)

/-- `AirPusher` application (src/air.rs lines 129-159): move
`amount * delta_time` of the source tile's air to the adjacent tile in the
facing direction; skipped if the target is off-grid, or source or target is
not ground. -/
def apply_air_pusher {W H : ℕ} (delta_time : ℚ) (tiles : Fin W → Fin H → Tile)
    (p : AirPusher W H) : Fin W → Fin H → Tile :=
  match p.direction.move_coords_in_direction p.x p.y with
  | Option.none => tiles
  | some (push_x, push_y) =>
    match (tiles p.x p.y).tile_type.get_air with
    | Option.none => tiles
    | some source_air =>
      let nitrogen_taken := source_air.nitrogen * p.amount * delta_time
      let oxygen_taken := source_air.oxygen * p.amount * delta_time
      let fumes_taken := source_air.fumes * p.amount * delta_time
      match (tiles push_x push_y).tile_type.get_air with
      | Option.none => tiles
      | some _ =>
        let tiles1 := modifyAirAt tiles push_x push_y (fun a =>
          { nitrogen := a.nitrogen + nitrogen_taken
            oxygen := a.oxygen + oxygen_taken
            fumes := a.fumes + fumes_taken })
        modifyAirAt tiles1 p.x p.y (fun a =>
          { nitrogen := a.nitrogen - nitrogen_taken
            oxygen := a.oxygen - oxygen_taken
            fumes := a.fumes - fumes_taken })

/-- `Map::apply_air_diff` (src/air.rs lines 94-161): clamp-add the delta
buffer, then apply each object's air levelers, oxygen users and air pushers
in registry order. -/
def apply_air_diff {W H : ℕ} (m : Map W H) (air_diff : Grid W H AirDiff) (delta_time : ℚ) :
    Map W H :=
  let tiles1 := applyAirDiffTiles m.tiles air_diff
  let tiles2 := m.objects.foldl (fun ts ob =>
    let ts1 := ob.air_levelers.foldl apply_air_leveler ts
    let ts2 := ob.oxygen_users.foldl (apply_oxygen_user delta_time) ts1
    ob.air_pushers.foldl (apply_air_pusher delta_time) ts2) tiles1
  { m with tiles := tiles2 }

/-- Per-tile body of `Map::apply_liquid_diff` (src/liquids.rs lines 57-80):
add both buffered deltas (clamped at 0); if both liquids are then present
they annihilate, raising the ground level by the absolute difference. -/
def apply_liquid_tile (t : Tile) (water_diff lava_diff : ℚ) : Tile :=
  match t.tile_type with
  | .Wall => t
  | .Ground air liquids =>
    let new_water_level := max (liquids.get_level Water + water_diff) 0
    let new_lava_level := max (liquids.get_level Lava + lava_diff) 0
    if new_water_level = 0 ∧ new_lava_level = 0 then ⟨t.ground_level, .Ground air .None⟩
    else
      let difference := new_water_level - new_lava_level
      let ground_level :=
        if new_water_level > 0 ∧ new_lava_level > 0 then t.ground_level + |difference|
        else t.ground_level
      if difference ≥ 0 then ⟨ground_level, .Ground air (.Water difference)⟩
      else ⟨ground_level, .Ground air (.Lava (-difference))⟩

/-- `LiquidLeveler` application (src/liquids.rs lines 82-91): force-set the
liquid state of the target ground tile. -/
def apply_liquid_leveler {W H : ℕ} (tiles : Fin W → Fin H → Tile) (l : LiquidLeveler W H) :
    Fin W → Fin H → Tile :=
  modifyLiquidsAt tiles l.x l.y (fun _ => l.target)

/-- `Map::apply_liquid_diff` (src/liquids.rs lines 52-92). -/
def apply_liquid_diff {W H : ℕ} (m : Map W H) (water_diff lava_diff : Grid W H ℚ) : Map W H :=
  let tiles1 := fun a b => apply_liquid_tile (m.tiles a b) (water_diff a b) (lava_diff a b)
  let tiles2 := m.objects.foldl (fun ts ob =>
    ob.liquid_levelers.foldl apply_liquid_leveler ts) tiles1
  { m with tiles := tiles2 }

/-- `Map::simulate` (src/lib.rs lines 252-267): compute the three diffusion
buffers against the pre-tick snapshot (the rayon fork-join), then apply air,
then liquids, then advance the clock. `f32::sqrt` is modelled by `sqrtQ`. -/
def simulate {W H : ℕ} (m : Map W H) (delta_time : ℚ) : Map W H :=
  let air_diff := calculate_air_diff sqrtQ m.tiles delta_time
  let water_diff := calculate_liquid_diff sqrtQ Water m.tiles delta_time
  let lava_diff := calculate_liquid_diff sqrtQ Lava m.tiles delta_time
  let m1 := apply_air_diff m air_diff delta_time
  let m2 := apply_liquid_diff m1 water_diff lava_diff
  { m2 with current_time := m2.current_time + delta_time }

/-- C2: in the per-tile body of `apply_liquid_diff`, for every ground tile
whose post-delta water and lava levels are both strictly positive, the tile
ends holding exactly one liquid kind: with `difference = new_water_level -
new_lava_level` it becomes `Water { level: difference }` if `difference ≥ 0`
and `Lava { level: -difference }` otherwise, and its `ground_level` grows by
`|difference|`; if both post-delta levels are zero the liquid state becomes
`None`. -/
theorem apply_liquid_tile_annihilation (t : Tile) (air : AirData) (liquids : LiquidData)
    (water_diff lava_diff : ℚ) (hground : t.tile_type = .Ground air liquids) :
    ((0 < max (liquids.get_level Water + water_diff) 0 ∧
      0 < max (liquids.get_level Lava + lava_diff) 0) →
      (apply_liquid_tile t water_diff lava_diff).ground_level
          = t.ground_level + |max (liquids.get_level Water + water_diff) 0
              - max (liquids.get_level Lava + lava_diff) 0| ∧
      (apply_liquid_tile t water_diff lava_diff).tile_type
        = .Ground air
            (if max (liquids.get_level Water + water_diff) 0
                - max (liquids.get_level Lava + lava_diff) 0 ≥ 0
             then .Water (max (liquids.get_level Water + water_diff) 0
                - max (liquids.get_level Lava + lava_diff) 0)
             else .Lava (-(max (liquids.get_level Water + water_diff) 0
                - max (liquids.get_level Lava + lava_diff) 0)))) ∧
    ((max (liquids.get_level Water + water_diff) 0 = 0 ∧
      max (liquids.get_level Lava + lava_diff) 0 = 0) →
      (apply_liquid_tile t water_diff lava_diff).tile_type = .Ground air .None) := by
  constructor
  · rintro ⟨hw, hl⟩
    unfold apply_liquid_tile
    rw [hground]
    dsimp only
    rw [if_neg (fun hc => absurd hc.1 (ne_of_gt hw)),
      if_pos (show max (liquids.get_level Water + water_diff) 0 > 0 ∧
        max (liquids.get_level Lava + lava_diff) 0 > 0 from ⟨hw, hl⟩)]
    split_ifs with hd <;> exact ⟨rfl, rfl⟩
  · rintro ⟨hw, hl⟩
    unfold apply_liquid_tile
    rw [hground]
    dsimp only
    rw [if_pos ⟨hw, hl⟩]

/-- Witness for `apply_liquid_tile_annihilation`: an empty ground tile
receiving water delta 2 and lava delta 1 ends as pure water of level 1 with
its ground level raised from 0 to 1. -/
theorem apply_liquid_tile_annihilation_witness :
    (apply_liquid_tile ⟨0, .Ground AirData.new_default .None⟩ 2 1).ground_level = 1 ∧
    (apply_liquid_tile ⟨0, .Ground AirData.new_default .None⟩ 2 1).tile_type
      = .Ground AirData.new_default (.Water 1) := by
  have h := (apply_liquid_tile_annihilation ⟨0, .Ground AirData.new_default .None⟩
    AirData.new_default .None 2 1 rfl).1
    (by norm_num [LiquidData.get_level, Water, Lava])
  refine ⟨?_, ?_⟩
  · rw [h.1]
    norm_num [LiquidData.get_level, Water, Lava]
  · rw [h.2]
    norm_num [LiquidData.get_level, Water, Lava]

/-- C8: during effector application an `OxygenUser` either leaves the tile's
air entirely unchanged (exactly when the tile's oxygen is below
`change_per_sec * delta_time` — no partial consumption), or subtracts exactly
`change_per_sec * delta_time` from oxygen and adds exactly the same amount to
fumes, leaving nitrogen and the tile's total air mass unchanged. -/
theorem oxygen_user_no_partial_consumption (air : AirData) (change_per_sec delta_time : ℚ) :
    (air.oxygen < change_per_sec * delta_time →
      oxygen_user_effect change_per_sec delta_time air = air) ∧
    (¬ air.oxygen < change_per_sec * delta_time →
      (oxygen_user_effect change_per_sec delta_time air).nitrogen = air.nitrogen ∧
      (oxygen_user_effect change_per_sec delta_time air).oxygen
        = air.oxygen - change_per_sec * delta_time ∧
      (oxygen_user_effect change_per_sec delta_time air).fumes
        = air.fumes + change_per_sec * delta_time) ∧
    (oxygen_user_effect change_per_sec delta_time air).total = air.total := by
  refine ⟨fun h => ?_, fun h => ?_, ?_⟩
  · rw [oxygen_user_effect, if_pos h]
  · rw [oxygen_user_effect, if_neg h]
    exact ⟨rfl, rfl, rfl⟩
  · rw [oxygen_user_effect]
    split_ifs
    · rfl
    · unfold AirData.total
      dsimp only
      ring

/-- Witness for `oxygen_user_no_partial_consumption`: a tile with oxygen 2
against `change_per_sec * delta_time = 1` loses exactly 1 oxygen and gains
exactly 1 fumes. -/
theorem oxygen_user_no_partial_consumption_witness :
    ¬ ((2 : ℚ) < 1 * 1) ∧
    (oxygen_user_effect 1 1 ⟨0, 2, 0⟩).nitrogen = 0 ∧
    (oxygen_user_effect 1 1 ⟨0, 2, 0⟩).oxygen = 2 - 1 * 1 ∧
    (oxygen_user_effect 1 1 ⟨0, 2, 0⟩).fumes = 0 + 1 * 1 ∧
    (oxygen_user_effect 1 1 ⟨0, 2, 0⟩).total = AirData.total ⟨0, 2, 0⟩ := by
  have h := (oxygen_user_no_partial_consumption ⟨0, 2, 0⟩ 1 1).2
  have h2 := h.1 (by norm_num)
  exact ⟨by norm_num, h2.1, h2.2.1, h2.2.2, h.2⟩

/-- All three air species of one tile are nonnegative. -/
def AirNonneg (air : AirData) : Prop :=
  0 ≤ air.nitrogen ∧ 0 ≤ air.oxygen ∧ 0 ≤ air.fumes

/-- Every ground tile of the grid has nonnegative air species. -/
def TilesAirNonneg {W H : ℕ} (tiles : Fin W → Fin H → Tile) : Prop :=
  ∀ (a : Fin W) (b : Fin H) (air : AirData),
    (tiles a b).tile_type.get_air = some air → AirNonneg air

/-- The effector bounds under which the nonnegativity invariant survives the
apply phase: levelers set nonnegative targets, oxygen users have nonnegative
rates, and air pushers move at most the whole tile
(`0 ≤ amount ∧ amount * delta_time ≤ 1`). -/
def WellBehavedObjects {W H : ℕ} (objects : List (MapObject W H)) (delta_time : ℚ) : Prop :=
  ∀ ob ∈ objects,
    (∀ l ∈ ob.air_levelers, 0 ≤ l.nitrogen ∧ 0 ≤ l.oxygen ∧ 0 ≤ l.fumes) ∧
    (∀ u ∈ ob.oxygen_users, 0 ≤ u.change_per_sec) ∧
    (∀ p ∈ ob.air_pushers, 0 ≤ p.amount ∧ p.amount * delta_time ≤ 1)

theorem foldl_preserves {α σ : Type} (Inv : α → Prop) (f : α → σ → α) (l : List σ) (g : α)
    (hg : Inv g) (hf : ∀ a s, s ∈ l → Inv a → Inv (f a s)) : Inv (l.foldl f g) := by
  induction l generalizing g with
  | nil => exact hg
  | cons s t ih =>
    rw [List.foldl_cons]
    exact ih (f g s) (hf g s (List.mem_cons_self s t) hg)
      (fun a x hx ha => hf a x (List.mem_cons_of_mem s hx) ha)

theorem applyAirDiffTiles_nonneg {W H : ℕ} (tiles : Fin W → Fin H → Tile)
    (air_diff : Grid W H AirDiff) : TilesAirNonneg (applyAirDiffTiles tiles air_diff) := by
  intro a b air h
  unfold applyAirDiffTiles at h
  rcases htt : (tiles a b).tile_type with _ | ⟨air0, liquids⟩ <;> rw [htt] at h
  · rw [htt] at h
    simp only [TileType.get_air] at h
    cases h
  · simp only [TileType.get_air, Option.some.injEq] at h
    subst h
    exact ⟨le_max_right _ _, le_max_right _ _, le_max_right _ _⟩

theorem modifyAirAt_nonneg {W H : ℕ} (tiles : Fin W → Fin H → Tile) (x : Fin W) (y : Fin H)
    (f : AirData → AirData) (hts : TilesAirNonneg tiles)
    (hf : ∀ air, (tiles x y).tile_type.get_air = some air → AirNonneg (f air)) :
    TilesAirNonneg (modifyAirAt tiles x y f) := by
  intro a b air h
  unfold modifyAirAt at h
  by_cases hp : (a, b) = (x, y)
  · rw [if_pos hp] at h
    obtain ⟨rfl, rfl⟩ := Prod.ext_iff.mp hp
    rcases htt : (tiles a b).tile_type with _ | ⟨air0, liquids⟩ <;> rw [htt] at h
    · exact hts a b air h
    · simp only [TileType.get_air, Option.some.injEq] at h
      subst h
      refine hf air0 ?_
      rw [htt]
      rfl
  · rw [if_neg hp] at h
    exact hts a b air h

theorem modifyAirAt_other {W H : ℕ} (tiles : Fin W → Fin H → Tile) (x : Fin W) (y : Fin H)
    (f : AirData → AirData) (a : Fin W) (b : Fin H) (h : (a, b) ≠ (x, y)) :
    modifyAirAt tiles x y f a b = tiles a b := by
  unfold modifyAirAt
  rw [if_neg h]

theorem move_coords_ne {W H : ℕ} (f : Facing) (x : Fin W) (y : Fin H) (px : Fin W) (py : Fin H)
    (h : f.move_coords_in_direction x y = some (px, py)) : (px, py) ≠ (x, y) := by
  cases f <;> rw [Facing.move_coords_in_direction] at h <;> split at h <;>
    simp_all [Prod.ext_iff, Fin.ext_iff] <;> omega

theorem oxygen_user_effect_nonneg (change_per_sec delta_time : ℚ) (air : AirData)
    (hc : 0 ≤ change_per_sec) (hdt : 0 ≤ delta_time) (ha : AirNonneg air) :
    AirNonneg (oxygen_user_effect change_per_sec delta_time air) := by
  obtain ⟨h1, h2, h3⟩ := ha
  have hcd := mul_nonneg hc hdt
  unfold oxygen_user_effect
  split_ifs with h
  · exact ⟨h1, h2, h3⟩
  · refine ⟨h1, ?_, ?_⟩ <;> dsimp only <;> linarith [not_lt.mp h]

theorem apply_air_pusher_nonneg {W H : ℕ} (delta_time : ℚ) (tiles : Fin W → Fin H → Tile)
    (p : AirPusher W H) (hts : TilesAirNonneg tiles) (hdt : 0 ≤ delta_time)
    (hamt : 0 ≤ p.amount) (hcap : p.amount * delta_time ≤ 1) :
    TilesAirNonneg (apply_air_pusher delta_time tiles p) := by
  unfold apply_air_pusher
  split
  · exact hts
  · rename_i push_x push_y hmv
    split
    · exact hts
    · rename_i source_air hsrc
      split
      · exact hts
      · rename_i target_air htgt
        have hsource := hts p.x p.y source_air hsrc
        have hne := move_coords_ne p.direction p.x p.y push_x push_y hmv
        refine modifyAirAt_nonneg _ _ _ _ (modifyAirAt_nonneg _ _ _ _ hts ?_) ?_
        · intro air0 h0
          have h0n := hts push_x push_y air0 h0
          refine ⟨?_, ?_, ?_⟩ <;> dsimp only
          · exact add_nonneg h0n.1 (mul_nonneg (mul_nonneg hsource.1 hamt) hdt)
          · exact add_nonneg h0n.2.1 (mul_nonneg (mul_nonneg hsource.2.1 hamt) hdt)
          · exact add_nonneg h0n.2.2 (mul_nonneg (mul_nonneg hsource.2.2 hamt) hdt)
        · intro air0 h0
          rw [modifyAirAt_other tiles push_x push_y _ p.x p.y (Ne.symm hne)] at h0
          rw [hsrc] at h0
          obtain rfl := Option.some_inj.mp h0
          have hc1 := mul_nonneg hsource.1 (sub_nonneg.mpr hcap)
          have hc2 := mul_nonneg hsource.2.1 (sub_nonneg.mpr hcap)
          have hc3 := mul_nonneg hsource.2.2 (sub_nonneg.mpr hcap)
          refine ⟨?_, ?_, ?_⟩ <;> dsimp only <;> nlinarith [hc1, hc2, hc3]

theorem apply_liquid_tile_air (t : Tile) (water_diff lava_diff : ℚ) :
    (apply_liquid_tile t water_diff lava_diff).tile_type.get_air = t.tile_type.get_air := by
  unfold apply_liquid_tile
  rcases htt : t.tile_type with _ | ⟨air, liquids⟩ <;> dsimp only
  · rw [htt]
  · split_ifs <;> rfl

theorem modifyLiquidsAt_air {W H : ℕ} (tiles : Fin W → Fin H → Tile) (x : Fin W) (y : Fin H)
    (f : LiquidData → LiquidData) (a : Fin W) (b : Fin H) :
    (modifyLiquidsAt tiles x y f a b).tile_type.get_air = (tiles a b).tile_type.get_air := by
  unfold modifyLiquidsAt
  split_ifs
  · rcases htt : (tiles a b).tile_type with _ | ⟨air, liquids⟩ <;> dsimp only
    · rw [htt]
    · rfl
  · rfl

theorem apply_air_diff_nonneg {W H : ℕ} (m : Map W H) (air_diff : Grid W H AirDiff)
    (delta_time : ℚ) (hdt : 0 ≤ delta_time) (hobj : WellBehavedObjects m.objects delta_time) :
    TilesAirNonneg (apply_air_diff m air_diff delta_time).tiles := by
  unfold apply_air_diff
  dsimp only
  refine foldl_preserves TilesAirNonneg _ m.objects _
    (applyAirDiffTiles_nonneg m.tiles air_diff) (fun ts ob hmem hts => ?_)
  obtain ⟨hlev, husr, hpsh⟩ := hobj ob hmem
  refine foldl_preserves TilesAirNonneg _ ob.air_pushers _ ?_ (fun ts2 p hp hts2 =>
    apply_air_pusher_nonneg delta_time ts2 p hts2 hdt (hpsh p hp).1 (hpsh p hp).2)
  refine foldl_preserves TilesAirNonneg _ ob.oxygen_users _ ?_ (fun ts2 u hu hts2 =>
    modifyAirAt_nonneg ts2 u.x u.y _ hts2 (fun air hair =>
      oxygen_user_effect_nonneg u.change_per_sec delta_time air (husr u hu) hdt
        (hts2 u.x u.y air hair)))
  exact foldl_preserves TilesAirNonneg _ ob.air_levelers _ hts (fun ts2 l hl hts2 =>
    modifyAirAt_nonneg ts2 l.x l.y _ hts2 (fun air hair => hlev l hl))

theorem apply_liquid_diff_preserves_air_nonneg {W H : ℕ} (m : Map W H)
    (water_diff lava_diff : Grid W H ℚ) (hts : TilesAirNonneg m.tiles) :
    TilesAirNonneg (apply_liquid_diff m water_diff lava_diff).tiles := by
  unfold apply_liquid_diff
  dsimp only
  refine foldl_preserves TilesAirNonneg _ m.objects _ ?_ (fun ts ob hmem hts2 => ?_)
  · intro a b air h
    rw [apply_liquid_tile_air] at h
    exact hts a b air h
  · refine foldl_preserves TilesAirNonneg _ ob.liquid_levelers _ hts2 (fun ts2 l hl hts3 => ?_)
    intro a b air h
    rw [apply_liquid_leveler, modifyLiquidsAt_air] at h
    exact hts3 a b air h

/-- C7 (amended): after `simulate(delta_time)`, every ground tile's air
components are nonnegative, for every starting grid and every `delta_time ≥ 0`,
provided the registered effectors are well-behaved: air levelers set
nonnegative targets, oxygen users have `change_per_sec ≥ 0`, and air pushers
satisfy `0 ≤ amount` and `amount * delta_time ≤ 1`. (For an arbitrary set of
objects the claim fails: an air pusher with `amount * delta_time > 1` drives
its source tile negative, see `simulate_air_nonneg_counterexample`.) -/
theorem simulate_air_nonneg {W H : ℕ} (m : Map W H) (delta_time : ℚ) (hdt : 0 ≤ delta_time)
    (hobj : WellBehavedObjects m.objects delta_time) :
    TilesAirNonneg (simulate m delta_time).tiles := by
  unfold simulate
  dsimp only
  exact apply_liquid_diff_preserves_air_nonneg _ _ _
    (apply_air_diff_nonneg m _ delta_time hdt hobj)

/-- The 1 by 1 map used to witness `simulate_air_nonneg`. -/
def mapC7w : Map 1 1 where
  tiles := fun _ _ => ⟨0, .Ground AirData.new_default .None⟩
  objects := []
  current_time := 0

/-- Witness for `simulate_air_nonneg`: the default singleton map with no
objects and `delta_time = 1`. -/
theorem simulate_air_nonneg_witness :
    (0 : ℚ) ≤ 1 ∧ WellBehavedObjects mapC7w.objects 1 ∧
    TilesAirNonneg (simulate mapC7w 1).tiles := by
  have hw : WellBehavedObjects mapC7w.objects 1 := by
    intro ob hmem
    exact absurd hmem (List.not_mem_nil ob)
  exact ⟨by norm_num, hw, simulate_air_nonneg mapC7w 1 (by norm_num) hw⟩

/-- The 2 by 1 map used to refute C7 as stated: default air everywhere and a
single air pusher at (0,0) facing East with `amount = 2`. -/
def mapC7 : Map 2 1 where
  tiles := fun _ _ => ⟨0, .Ground AirData.new_default .None⟩
  objects := [⟨[], [], [⟨0, 0, .East, 2⟩], []⟩]
  current_time := 0

/-- Counterexample to C7 as stated: with the air pusher moving
`amount * delta_time = 2` of its tile, one `simulate(1)` tick leaves tile
(0,0) with nitrogen -0.79 and oxygen -0.21 — negative air components. -/
theorem simulate_air_nonneg_counterexample :
    ((simulate mapC7 1).tiles 0 0).tile_type.get_air
      = some ⟨-(79 / 100), -(21 / 100), 0⟩ ∧
    ¬ (0 ≤ -(79 / 100 : ℚ)) := by
  have hcoords : all_tile_coords 2 1 = [(0, 0), (1, 0)] := by decide
  have hnb0 : neighbour_coords (0 : Fin 2) (0 : Fin 1) = [(1, 0)] := by decide
  have hnb1 : neighbour_coords (1 : Fin 2) (0 : Fin 1) = [(0, 0)] := by decide
  refine ⟨?_, by norm_num⟩
  norm_num [simulate, apply_air_diff, apply_liquid_diff, applyAirDiffTiles,
    calculate_air_diff, calculate_liquid_diff, hcoords, hnb0, hnb1, airSourceStep,
    airPairStep, airDiffusionTrade, airPressureDelta, liquidSourceStep, liquidPairStep,
    apply_air_pusher, apply_air_leveler, apply_oxygen_user, apply_liquid_leveler,
    apply_liquid_tile, Facing.move_coords_in_direction, modifyAirAt, modifyLiquidsAt,
    AirData.air_pressure, AirData.nitrogen_fraction, AirData.oxygen_fraction,
    AirData.fumes_fraction, AirData.new_default, LiquidData.get_level, AnyLiquid, Water,
    Lava, LiquidData.MAX_LEVEL, DIFFUSION_SPREAD_RATE, PRESSURE_SPREAD_RATE, rclamp,
    addAt, mapC7, max_def, min_def, Prod.ext_iff, Fin.ext_iff, TileType.get_air]

/-- Configuration of one object's `SyncState` spinlock
(src/objects/mod.rs lines 213-258) together with the thread phases of its
clients: `val` is the `AtomicU32` word (writer flag in bit 0, reader count in
increments of `READER = 2`; the atomic operations on it wrap modulo
2^32 = 4294967296), `readers` the threads currently holding read access,
`rollback` the threads whose `spin_take_read` incremented, observed the
writer flag and must still undo their increment, and `writers` the threads
holding write access. -/
structure SyncConfig where
  val : ℕ
  readers : ℕ
  rollback : ℕ
  writers : ℕ
  deriving DecidableEq

/-- Interleaving semantics of the `SyncState` operations: each constructor is
one atomic step of `spin_take_read` / `release_read` / `spin_take_write` /
`release_write` (a failed CAS in `spin_take_write` changes nothing and is
omitted). `fetch_add` returns the previous value, so `spin_take_read` either
acquires (previous writer bit clear) or enters the rollback phase; the
rollback `fetch_sub` is a separate atomic step. `fetch_add` and `fetch_sub`
wrap modulo 2^32 exactly as Rust's `AtomicU32` does: subtracting `READER = 2`
is adding 4294967294 = 2^32 - 2, subtracting `WRITER = 1` is adding
4294967295 = 2^32 - 1, each modulo 4294967296. -/
inductive SyncStep : SyncConfig → SyncConfig → Prop where
  | take_read_acquire (s : SyncConfig) (h : s.val % 2 = 0) :
      SyncStep s ⟨(s.val + 2) % 4294967296, s.readers + 1, s.rollback, s.writers⟩
  | take_read_blocked (s : SyncConfig) (h : s.val % 2 = 1) :
      SyncStep s ⟨(s.val + 2) % 4294967296, s.readers, s.rollback + 1, s.writers⟩
  | read_rollback (s : SyncConfig) (h : 0 < s.rollback) :
      SyncStep s ⟨(s.val + 4294967294) % 4294967296, s.readers, s.rollback - 1, s.writers⟩
  | release_read (s : SyncConfig) (h : 0 < s.readers) :
      SyncStep s ⟨(s.val + 4294967294) % 4294967296, s.readers - 1, s.rollback, s.writers⟩
  | take_write (s : SyncConfig) (h : s.val = 0) :
      SyncStep s ⟨1, s.readers, s.rollback, s.writers + 1⟩
  | release_write (s : SyncConfig) (h : 0 < s.writers) :
      SyncStep s ⟨(s.val + 4294967295) % 4294967296, s.readers, s.rollback, s.writers - 1⟩

/-- The initial configuration: `SyncState::new()` with no clients. -/
def SyncConfig.init : SyncConfig := ⟨0, 0, 0, 0⟩

/-- Configurations reachable from `SyncState::new()` by any interleaving,
with no bound on the number of concurrent clients. -/
def SyncReachable (s : SyncConfig) : Prop :=
  Relation.ReflTransGen SyncStep SyncConfig.init s

/-- Configurations reachable from `SyncState::new()` by an interleaving in
which at most `N` clients are simultaneously past their reader increment
(holding read access or pending rollback). -/
def SyncBoundedReachable (N : ℕ) (s : SyncConfig) : Prop :=
  Relation.ReflTransGen (fun a b => SyncStep a b ∧ b.readers + b.rollback ≤ N)
    SyncConfig.init s

/-- The inductive invariant of the spinlock under at most `N` concurrent
clients: the atomic word counts two per incremented reader plus the writer
bit (and, below 2^32, never wraps), at most one writer holds the lock, and
no reader holds it while a writer does. -/
def SyncInv (N : ℕ) (s : SyncConfig) : Prop :=
  s.val = 2 * (s.readers + s.rollback) + s.writers ∧
  s.readers + s.rollback ≤ N ∧
  s.writers ≤ 1 ∧ (0 < s.writers → s.readers = 0)

theorem syncInv_init (N : ℕ) : SyncInv N SyncConfig.init := by
  refine ⟨rfl, ?_, ?_, ?_⟩ <;> simp [SyncConfig.init]

theorem syncInv_step (N : ℕ) (hN : 2 * N + 1 < 4294967296) (s s2 : SyncConfig)
    (hs : SyncInv N s) (hstep : SyncStep s s2) (hb : s2.readers + s2.rollback ≤ N) :
    SyncInv N s2 := by
  obtain ⟨hv, hr, hw1, hwr⟩ := hs
  cases hstep <;> (refine ⟨?_, ?_, ?_, ?_⟩ <;> dsimp only at hb ⊢ <;> omega)

theorem syncInv_reachable (N : ℕ) (hN : 2 * N + 1 < 4294967296) (s : SyncConfig)
    (h : SyncBoundedReachable N s) : SyncInv N s := by
  induction h with
  | refl => exact syncInv_init N
  | tail hsteps hstep2 ih => exact syncInv_step N hN _ _ ih hstep2.1 hstep2.2

/-- C3 (amended): for the per-object spinlock, whose `AtomicU32` word wraps
modulo 2^32, in every configuration reachable from `SyncState::new()` under
any interleaving of `spin_take_read` / `release_read` / `spin_take_write` /
`release_write` in which at most `N` clients are simultaneously past their
reader increment, with `2 * N + 1 < 2^32`, at most one writer holds the lock
and no reader holds it while a writer holds it: at any observed instant
either (readers ≥ 0 and writer = 0) or (readers = 0 and writer = 1).
(Without the client bound the invariant fails in the wrapping semantics:
see `syncState_mutual_exclusion_counterexample`.) -/
theorem syncState_mutual_exclusion (N : ℕ) (hN : 2 * N + 1 < 4294967296)
    (s : SyncConfig) (h : SyncBoundedReachable N s) :
    s.writers = 0 ∨ (s.writers = 1 ∧ s.readers = 0) := by
  obtain ⟨hv, hr, hw1, hwr⟩ := syncInv_reachable N hN s h
  rcases Nat.eq_zero_or_pos s.writers with h0 | h0
  · exact Or.inl h0
  · exact Or.inr ⟨by omega, hwr h0⟩

/-- Witness for `syncState_mutual_exclusion`: with at most one concurrent
client, after one writer acquisition from the initial state the configuration
is `⟨1, 0, 0, 1⟩` and the theorem yields the writer-holding branch. -/
theorem syncState_mutual_exclusion_witness :
    2 * 1 + 1 < 4294967296 ∧
    SyncBoundedReachable 1 ⟨1, 0, 0, 1⟩ ∧
    ((⟨1, 0, 0, 1⟩ : SyncConfig).writers = 0 ∨
      ((⟨1, 0, 0, 1⟩ : SyncConfig).writers = 1 ∧
        (⟨1, 0, 0, 1⟩ : SyncConfig).readers = 0)) := by
  have hreach : SyncBoundedReachable 1 ⟨1, 0, 0, 1⟩ :=
    Relation.ReflTransGen.single ⟨SyncStep.take_write SyncConfig.init rfl, by decide⟩
  exact ⟨by norm_num, hreach,
    syncState_mutual_exclusion 1 (by norm_num) ⟨1, 0, 0, 1⟩ hreach⟩

theorem syncReadersWrapReach (n : ℕ) (hn : n ≤ 2147483648) :
    SyncReachable ⟨(2 * n) % 4294967296, n, 0, 0⟩ := by
  induction n with
  | zero =>
    have h0 : (2 * 0) % 4294967296 = 0 := by norm_num
    rw [h0]
    exact Relation.ReflTransGen.refl
  | succ k ih =>
    have hlt : 2 * k < 4294967296 := by omega
    have hstep := SyncStep.take_read_acquire ⟨(2 * k) % 4294967296, k, 0, 0⟩
      (by dsimp only; omega)
    have heq : ((2 * k) % 4294967296 + 2) % 4294967296 = (2 * (k + 1)) % 4294967296 := by
      omega
    rw [← heq]
    exact Relation.ReflTransGen.tail (ih (by omega)) hstep

/-- Counterexample to C3 as stated (no bound on the number of concurrent
clients): after 2^31 = 2147483648 concurrent `spin_take_read` acquisitions
the `AtomicU32` word wraps to `2^32 % 2^32 = 0`, so `spin_take_write`'s
compare-exchange from 0 succeeds, and the resulting reachable configuration
has one writer and 2^31 readers holding the lock at the same instant. -/
theorem syncState_mutual_exclusion_counterexample :
    SyncReachable ⟨1, 2147483648, 0, 1⟩ ∧
    ¬ ((⟨1, 2147483648, 0, 1⟩ : SyncConfig).writers = 0 ∨
      ((⟨1, 2147483648, 0, 1⟩ : SyncConfig).writers = 1 ∧
        (⟨1, 2147483648, 0, 1⟩ : SyncConfig).readers = 0)) := by
  have hfull := syncReadersWrapReach 2147483648 le_rfl
  have hstep := SyncStep.take_write ⟨(2 * 2147483648) % 4294967296, 2147483648, 0, 0⟩
    (by norm_num)
  exact ⟨Relation.ReflTransGen.tail hfull hstep, by decide⟩

/-- `WorkSpotOccupation` (src/objects/building.rs); the `ObjectId<Character>`
of the claimer is modelled as a natural number. -/
inductive WorkSpotOccupation where
  | Open
  | Claimed (claimer : ℕ)
  | Working (claimer : ℕ)
  deriving DecidableEq

/-- `Building::claim_workspot` (src/objects/building.rs lines 37-53) on the
building's workspot list, returning the `Result` together with the resulting
list (Rust mutates in place; the `Err` early return leaves it untouched).
The index must be in bounds — Rust panics otherwise. -/
def claim_workspot (workspots : List WorkSpotOccupation) (index : ℕ)
    (hindex : index < workspots.length) (claimer : ℕ) :
    Except Unit Unit × List WorkSpotOccupation :=
  match workspots.get ⟨index, hindex⟩ with
  | .Open => (.ok (), workspots.set index (.Claimed claimer))
  | .Claimed old_claimer =>
    if old_claimer = claimer then (.ok (), workspots.set index (.Claimed claimer))
    else (.error (), workspots)
  | .Working _ => (.error (), workspots)

/-- C10: `claim_workspot(index, claimer)` returns `Ok` and sets the workspot
to `Claimed(claimer)` exactly when it was `Open` or already
`Claimed(claimer)` (re-claiming by the same character is idempotent); in
every other case — `Claimed` or `Working` by a different character, or
`Working(claimer)` itself — it returns `Err(())` and leaves the workspot
list unchanged. -/
theorem claim_workspot_spec (workspots : List WorkSpotOccupation) (index : ℕ)
    (hindex : index < workspots.length) (claimer : ℕ) :
    ((workspots.get ⟨index, hindex⟩ = .Open ∨
      workspots.get ⟨index, hindex⟩ = .Claimed claimer) →
      claim_workspot workspots index hindex claimer
        = (.ok (), workspots.set index (.Claimed claimer))) ∧
    ((workspots.get ⟨index, hindex⟩ ≠ .Open ∧
      workspots.get ⟨index, hindex⟩ ≠ .Claimed claimer) →
      claim_workspot workspots index hindex claimer = (.error (), workspots)) := by
  constructor
  · intro h
    rcases h with h | h <;> rw [List.get_eq_getElem] at h <;> simp [claim_workspot, h]
  · rintro ⟨hopen, hclaim⟩
    rcases hocc : workspots.get ⟨index, hindex⟩ with _ | old | old
    · exact absurd hocc hopen
    · have hne : old ≠ claimer := fun he => hclaim (by rw [hocc, he])
      rw [List.get_eq_getElem] at hocc
      simp [claim_workspot, hocc, hne]
    · rw [List.get_eq_getElem] at hocc
      simp [claim_workspot, hocc]

/-- Witness for `claim_workspot_spec`: claiming the open spot 0 of
`[Open, Working 7]` succeeds and claiming the foreign `Working` spot 1
fails, leaving the list unchanged. -/
theorem claim_workspot_spec_witness :
    claim_workspot [.Open, .Working 7] 0 (by norm_num) 3
      = (.ok (), [.Claimed 3, .Working 7]) ∧
    claim_workspot [.Open, .Working 7] 1 (by norm_num) 3
      = (.error (), [.Open, .Working 7]) := by
  constructor
  · exact (claim_workspot_spec [.Open, .Working 7] 0 (by norm_num) 3).1 (Or.inl rfl)
  · exact (claim_workspot_spec [.Open, .Working 7] 1 (by norm_num) 3).2
      (by refine ⟨?_, ?_⟩ <;> decide)

/-- The solvers' Fin-indexed neighbour list projects exactly onto
`Map::neighbour_tile_coords`, entry for entry. -/
theorem neighbour_coords_spec {W H : ℕ} (x : Fin W) (y : Fin H) :
    (neighbour_coords x y).map (fun p => (p.1.val, p.2.val))
      = neighbour_tile_coords W H x.val y.val := by
  unfold neighbour_coords neighbour_tile_coords
  by_cases h1 : 0 < x.val <;> by_cases h2 : 0 < y.val <;>
    by_cases h3 : x.val < W - 1 <;> by_cases h4 : y.val < H - 1 <;>
    simp [h1, h2, h3, h4, List.filterMap_cons]

theorem foldl_addContribG {W H : ℕ} {M σ : Type} [AddCommGroup M]
    (F : Grid W H M → σ → Grid W H M) (C : σ → Fin W × Fin H → M)
    (hF : ∀ (g : Grid W H M) (s : σ) (a : Fin W) (b : Fin H), F g s a b = g a b + C s (a, b)) :
    ∀ (l : List σ) (g : Grid W H M) (a : Fin W) (b : Fin H),
      (l.foldl F g) a b = g a b + (l.map (fun s => C s (a, b))).sum := by
  intro l
  induction l with
  | nil => intro g a b; simp
  | cons s t ih =>
    intro g a b
    rw [List.foldl_cons, ih, hF, List.map_cons, List.sum_cons]
    abel

/-- The whole per-pair air delta of one source/neighbour visit: equalizing
diffusion trade plus pressure-driven bulk flow, zero unless both tiles are
ground. -/
def air_pair_delta {W H : ℕ} (sq : ℚ → ℚ) (tiles : Fin W → Fin H → Tile) (delta_time : ℚ)
    (src nb : Fin W × Fin H) : AirDiff :=
  match (tiles src.1 src.2).tile_type, (tiles nb.1 nb.2).tile_type with
  | .Ground air liquids, .Ground neighbour_air neighbour_liquids =>
    let air_pressure := air.air_pressure (liquids.get_level AnyLiquid)
    let neighbour_air_pressure :=
      neighbour_air.air_pressure (neighbour_liquids.get_level AnyLiquid)
    airDiffusionTrade air neighbour_air neighbour_air_pressure delta_time
      + airPressureDelta sq air air_pressure neighbour_air_pressure delta_time
  | _, _ => 0

/-- The air delta grid in the claims' per-pair reading: every
source/neighbour visit credits `air_pair_delta` to the neighbour and debits
it from the source. -/
def air_diff_spec {W H : ℕ} (sq : ℚ → ℚ) (tiles : Fin W → Fin H → Tile) (delta_time : ℚ) :
    Grid W H AirDiff :=
  fun a b =>
    ((all_tile_coords W H).map (fun src =>
      ((neighbour_coords src.1 src.2).map (fun nb =>
        (if (a, b) = nb then air_pair_delta sq tiles delta_time src nb else 0)
          - (if (a, b) = src then air_pair_delta sq tiles delta_time src nb else 0))).sum)).sum

theorem airPairStep_apply {W H : ℕ} (sq : ℚ → ℚ) (delta_time : ℚ)
    (tiles : Fin W → Fin H → Tile) (src : Fin W × Fin H) (air : AirData)
    (liquids : LiquidData) (hsrc : (tiles src.1 src.2).tile_type = .Ground air liquids)
    (g : Grid W H AirDiff) (nb : Fin W × Fin H) (a : Fin W) (b : Fin H) :
    airPairStep sq delta_time tiles src air
        (air.air_pressure (liquids.get_level AnyLiquid)) g nb a b
      = g a b + ((if (a, b) = nb then air_pair_delta sq tiles delta_time src nb else 0)
          - (if (a, b) = src then air_pair_delta sq tiles delta_time src nb else 0)) := by
  unfold airPairStep air_pair_delta
  rw [hsrc]
  rcases hnb : (tiles nb.1 nb.2).tile_type with _ | ⟨neighbour_air, neighbour_liquids⟩
  · simp
  · dsimp only
    simp only [addAt_apply]
    split_ifs <;> abel

theorem airSourceStep_apply {W H : ℕ} (sq : ℚ → ℚ) (delta_time : ℚ)
    (tiles : Fin W → Fin H → Tile) (g : Grid W H AirDiff) (src : Fin W × Fin H)
    (a : Fin W) (b : Fin H) :
    airSourceStep sq delta_time tiles g src a b
      = g a b + ((neighbour_coords src.1 src.2).map (fun nb =>
          (if (a, b) = nb then air_pair_delta sq tiles delta_time src nb else 0)
            - (if (a, b) = src then air_pair_delta sq tiles delta_time src nb else 0))).sum := by
  unfold airSourceStep
  rcases hsrc : (tiles src.1 src.2).tile_type with _ | ⟨air, liquids⟩
  · rw [List.sum_eq_zero, add_zero]
    intro x hx
    simp only [List.mem_map] at hx
    obtain ⟨nb, _, rfl⟩ := hx
    unfold air_pair_delta
    rw [hsrc]
    simp
  · dsimp only
    exact foldl_addContribG _
      (fun nb p => (if p = nb then air_pair_delta sq tiles delta_time src nb else 0)
        - (if p = src then air_pair_delta sq tiles delta_time src nb else 0))
      (fun g nb a b => airPairStep_apply sq delta_time tiles src air liquids hsrc g nb a b)
      (neighbour_coords src.1 src.2) g a b

/-- Supporting grid-level characterization of the air solver: the buffer
produced by `calculate_air_diff` is exactly the sum, over all
source/neighbour visits, of `air_pair_delta` credited to the neighbour and
debited from the source. -/
theorem calculate_air_diff_eq_spec {W H : ℕ} (sq : ℚ → ℚ) (tiles : Fin W → Fin H → Tile)
    (delta_time : ℚ) :
    calculate_air_diff sq tiles delta_time = air_diff_spec sq tiles delta_time := by
  funext a b
  unfold calculate_air_diff air_diff_spec
  rw [foldl_addContribG (airSourceStep sq delta_time tiles)
    (fun src p => ((neighbour_coords src.1 src.2).map (fun nb =>
      (if p = nb then air_pair_delta sq tiles delta_time src nb else 0)
        - (if p = src then air_pair_delta sq tiles delta_time src nb else 0))).sum)
    (fun g src a b => airSourceStep_apply sq delta_time tiles g src a b)
    (all_tile_coords W H) 0 a b]
  simp

end AciMap
